import Mathlib

/-
Verification of the localizer port-forward subsystem.

The development shallowly embeds the two proxier source files: the
port-forward worker (`NewPortForwarder`, `Start`, `CreatePortForward`,
`DeletePortForward`, `stopPortForward`, `setPortForwardConnectionStatus`,
`getPodForService`, `touch`) and the legacy `Proxier.Proxy` duplicate-port
guard.  External effects (loopback-alias subprocesses, hosts-file disk
writes, the SPDY upgrade, tunnel creation, the cluster Endpoints query)
are threaded through an explicit environment record that fixes the
outcome of each effectful call, and the worker's mutable fields become an
explicit state record.  Machine `net.IP` values are 32-bit naturals;
an absent (`nil` / empty) IP is `none`.
-/

namespace Localizer

/-- Modelled from the spec: `ServiceInfo` (§3) is declared outside the
provided sources; a namespace and a name identifying a remote service. -/
structure ServiceInfo where
  Namespace : String
  Name : String
deriving DecidableEq, Repr

/-- Modelled from the spec: `Key()` is namespace + "/" + name (§3). -/
def ServiceInfo.Key (s : ServiceInfo) : String :=
  s.Namespace ++ "/" ++ s.Name

/-- Modelled from the spec: `PodInfo` (§3), identity of a backing instance. -/
structure PodInfo where
  Namespace : String
  Name : String
deriving DecidableEq, Repr

/-- Modelled from the spec: key of a pod, same shape as a service key (§3). -/
def PodInfo.Key (p : PodInfo) : String :=
  p.Namespace ++ "/" ++ p.Name

/-- Modelled from the spec: `PodKind`, the expected kind of an endpoint
address target reference (§4.4); the constant is declared outside the
provided sources. -/
def PodKind : String := "Pod"

/-- Modelled from the spec: the record status set {Running, Waiting,
Recreating} (§3); declared outside the provided sources. -/
inductive PortForwardStatus where
  | Running
  | Waiting
  | Recreating
deriving DecidableEq, Repr

/-- Modelled from the spec: `PortForwardConnection` (§3), the worker's
record for one forward.  `IP` is the allocated local address (`none` =
empty `net.IP`), `pf` the opaque tunnel handle (`none` = nil pointer). -/
structure PortForwardConnection where
  Service : ServiceInfo
  Pod : PodInfo
  IP : Option Nat
  Ports : List String
  Hostnames : List String
  Status : PortForwardStatus
  StatusReason : String
  pf : Option Nat
deriving DecidableEq, Repr

/-- Modelled from the spec: `CreatePortForwardRequest` (§4.6). -/
structure CreatePortForwardRequest where
  Service : ServiceInfo
  Hostnames : List String
  Ports : List String
  Endpoint : Option PodInfo
  Recreate : Bool
  RecreateReason : String
deriving DecidableEq, Repr

/-- Modelled from the spec: `DeletePortForwardRequest` (§4.6). -/
structure DeletePortForwardRequest where
  Service : ServiceInfo
deriving DecidableEq, Repr

/-- Modelled from the spec: `PortForwardRequest`, the union pushed onto the
worker inbox; in the source it is a struct of two nilable pointers. -/
structure PortForwardRequest where
  CreatePortForwardRequest : Option CreatePortForwardRequest
  DeletePortForwardRequest : Option DeletePortForwardRequest
deriving DecidableEq, Repr

/-- A Go `context.Context`, reduced to the one observable the code
consults: whether it has been cancelled. -/
structure Ctx where
  cancelled : Bool
deriving DecidableEq, Repr

/-- The background context (`context.Background()`), never cancelled. -/
def backgroundCtx : Ctx := ⟨false⟩

/-- Modelled from the spec: the go-ipam pool carved from the configured
loopback CIDR (§4.1): first-fit acquisition inside the prefix, release
back to the free set, double-release and exhaustion distinguishable.
`base`/`maskBits` are the parsed CIDR; `acquired` the allocated set. -/
structure Ipam where
  base : Nat
  maskBits : Nat
  acquired : List Nat
deriving DecidableEq, Repr

/-- Number of addresses covered by the prefix. -/
def Ipam.size (p : Ipam) : Nat := 2 ^ (32 - p.maskBits)

/-- Membership test of the parsed CIDR (`net.IPNet.Contains`). -/
def Ipam.containsIP (p : Ipam) (ip : Nat) : Bool :=
  decide (p.base ≤ ip) && decide (ip < p.base + p.size)

/-- Modelled from the spec: the allocatable addresses of the prefix in
first-fit order (network and broadcast addresses are not handed out). -/
def Ipam.candidates (p : Ipam) : List Nat :=
  (List.range (p.size - 2)).map (fun i => p.base + 1 + i)

/-- Modelled from the spec: `AcquireIP` (§4.1) — first-fit acquisition;
`none` is the pool-empty error. -/
def Ipam.AcquireIP (p : Ipam) : Option (Nat × Ipam) :=
  match p.candidates.find? (fun ip => !(p.acquired.contains ip)) with
  | some ip => some (ip, { p with acquired := ip :: p.acquired })
  | none => none

/-- Modelled from the spec: `AcquireSpecificIP` (§4.1); fails when the
address is outside the prefix or already acquired. -/
def Ipam.AcquireSpecificIP (p : Ipam) (ip : Nat) : Option Ipam :=
  if p.containsIP ip && !(p.acquired.contains ip) then
    some { p with acquired := ip :: p.acquired }
  else
    none

/-- Modelled from the spec: release of an allocated address back to the
free set (§4.1); releasing an address that is not acquired fails with a
distinguishable error (`none`). -/
def Ipam.ReleaseIP (p : Ipam) (ip : Nat) : Option Ipam :=
  if p.acquired.contains ip then
    some { p with acquired := p.acquired.erase ip }
  else
    none

/-- Modelled from the spec: the hosts-file editor (§4.2).  `entries` is
the in-memory managed section (one line per IP, names in order); `disk`
is the managed section as last persisted by `Save`. -/
structure HostsFile where
  entries : List (Nat × List String)
  disk : List (Nat × List String)
deriving DecidableEq, Repr

/-- Modelled from the spec: `addHosts` appends or replaces the single
line for the IP within the managed section (§4.2). -/
def HostsFile.AddHosts (f : HostsFile) (ip : Nat) (names : List String) : HostsFile :=
  if (f.entries.lookup ip).isSome then
    { f with entries := f.entries.map (fun e => if e.1 == ip then (ip, names) else e) }
  else
    { f with entries := f.entries ++ [(ip, names)] }

/-- Modelled from the spec: `removeAddress` deletes the line for the IP
from the managed section (§4.2). -/
def HostsFile.RemoveAddress (f : HostsFile) (ip : Nat) : HostsFile :=
  { f with entries := f.entries.filter (fun e => !(e.1 == ip)) }

/-- Modelled from the spec: `save` is the only operation that touches
disk (§4.2); it persists the managed section atomically.  It fails when
the supplied context is cancelled or when the disk write itself fails
(the `ok` oracle); on failure the on-disk state is unchanged. -/
def HostsFile.Save (f : HostsFile) (ctx : Ctx) (ok : Bool) : HostsFile × Bool :=
  if ctx.cancelled || !ok then (f, false)
  else ({ f with disk := f.entries }, true)

/-- The k8s `ObjectReference` fields the resolver reads. -/
structure ObjectReference where
  Kind : String
  Name : String
  Namespace : String
deriving DecidableEq, Repr

/-- The k8s `EndpointAddress` field the resolver reads: the nilable
target reference. -/
structure EndpointAddress where
  TargetRef : Option ObjectReference
deriving DecidableEq, Repr

/-- One k8s endpoint subset: its address list, in cluster order. -/
structure EndpointSubset where
  Addresses : List EndpointAddress
deriving DecidableEq, Repr

/-- The k8s `Endpoints` object for a service: subsets in cluster order. -/
structure Endpoints where
  Subsets : List EndpointSubset
deriving DecidableEq, Repr

/-- Outcomes of the external calls a single request can make: the
platform configuration (`runtime.GOOS`, `DISABLE_LOOPBACK_ALIAS`), the
success of each subprocess / disk / network operation, and the result of
the cluster Endpoints query.  The worker code branches on exactly these
observables. -/
structure Env where
  goosDarwin : Bool
  disableLoopbackAlias : Bool
  aliasAddOk : Bool
  aliasRemoveOk : Bool
  addHostsOk : Bool
  createSaveOk : Bool
  stopSaveOk : Bool
  upgradeOk : Bool
  epResult : Option Endpoints
  tunnelOk : Bool
deriving DecidableEq, Repr

/-- The alias-relevant platform test the source repeats at both sites:
`runtime.GOOS == "darwin" && os.Getenv("DISABLE_LOOPBACK_ALIAS") == ""`. -/
def Env.needsAlias (e : Env) : Bool :=
  e.goosDarwin && !e.disableLoopbackAlias

/-- The worker's mutable state: the IP pool, the hosts file, the set of
loopback aliases currently bound, the active map (`portForwards`, an
association list keyed by `ServiceInfo.Key`), the last-activity counter
(`lastTouchTime`), the set of closed tunnel handles, and a counter
allocating fresh tunnel handles. -/
structure WorkerState where
  ippool : Ipam
  dns : HostsFile
  aliases : List Nat
  portForwards : List (String × PortForwardConnection)
  lastTouchTime : Nat
  closedTunnels : List Nat
  nextTunnel : Nat
deriving DecidableEq, Repr

/-- Replace-or-append insertion into the active map. -/
def mapInsert (m : List (String × PortForwardConnection)) (k : String)
    (v : PortForwardConnection) : List (String × PortForwardConnection) :=
  if (m.lookup k).isSome then
    m.map (fun e => if e.1 == k then (k, v) else e)
  else
    m ++ [(k, v)]

/-- Deletion from the active map (`delete(w.portForwards, serviceKey)`). -/
def mapErase (m : List (String × PortForwardConnection)) (k : String) :
    List (String × PortForwardConnection) :=
  m.filter (fun e => !(e.1 == k))

/-- `worker.touch`: note that the worker did meaningful work.  Wall-clock
time is abstracted to a strictly growing counter. -/
def touch (w : WorkerState) : WorkerState :=
  { w with lastTouchTime := w.lastTouchTime + 1 }

/-- `worker.isStable`: true iff at least two seconds (two ticks of the
abstract clock) have passed since the last touch. -/
def isStable (w : WorkerState) (now : Nat) : Bool :=
  decide (w.lastTouchTime + 2 ≤ now)

/-- The search of `worker.getPodForService` over one subset's addresses:
skip addresses whose target reference is nil or not of kind `PodKind`,
return the first that qualifies. -/
def findTargetInAddresses : List EndpointAddress → Option ObjectReference
  | [] => none
  | a :: rest =>
    match a.TargetRef with
    | none => findTargetInAddresses rest
    | some r =>
      if r.Kind ≠ PodKind then findTargetInAddresses rest
      else some r

/-- The outer labelled loop of `worker.getPodForService`: first subset
whose address list yields a qualifying target wins (`break loop`). -/
def findTargetInSubsets : List EndpointSubset → Option ObjectReference
  | [] => none
  | s :: rest =>
    match findTargetInAddresses s.Addresses with
    | some r => some r
    | none => findTargetInSubsets rest

/-- `worker.getPodForService`: the Endpoints query result is supplied by
the environment (`none` = the Get call itself errored); on success the
double loop picks the first address whose target reference is non-nil
and of the Pod kind, else the function returns an empty `PodInfo` and
the "failed to find endpoint for service" error. -/
def getPodForService (epResult : Option Endpoints) : PodInfo × Option String :=
  match epResult with
  | none => (⟨"", ""⟩, some "endpoints get failed")
  | some e =>
    match findTargetInSubsets e.Subsets with
    | some r => (⟨r.Namespace, r.Name⟩, none)
    | none => (⟨"", ""⟩, some "failed to find endpoint for service")

/-- `worker.setPortForwardConnectionStatus`: update status and reason of
the record at the service key; silently do nothing when absent. -/
def setPortForwardConnectionStatus (w : WorkerState) (si : ServiceInfo)
    (status : PortForwardStatus) (reason : String) : WorkerState :=
  match w.portForwards.lookup si.Key with
  | none => w
  | some pf =>
    { w with portForwards :=
        mapInsert w.portForwards si.Key { pf with Status := status, StatusReason := reason } }

/-- Mark a tunnel handle closed (`conn.pf.Close()`); closing twice is
absorbed. -/
def closeTunnel (s : WorkerState) (t : Nat) : WorkerState :=
  if s.closedTunnels.contains t then s
  else { s with closedTunnels := t :: s.closedTunnels }

/-- The body of `worker.stopPortForward` for a non-nil record: close the
tunnel when present; when the record's IP is non-empty, remove the
loopback alias (platform-conditional), release the IP to the pool,
remove the hosts line, save the hosts file with the background context,
empty the record's IP; collect every step error into a list. -/
def stopPortForwardConn (env : Env) (conn : PortForwardConnection)
    (s : WorkerState) : PortForwardConnection × WorkerState × List String :=
  let s :=
    match conn.pf with
    | some t => closeTunnel s t
    | none => s
  match conn.IP with
  | none => (conn, s, [])
  | some ip =>
    let (s, errs) :=
      if env.needsAlias then
        if env.aliasRemoveOk then
          ({ s with aliases := s.aliases.erase ip }, ([] : List String))
        else
          (s, ["failed to release ip alias"])
      else (s, [])
    let (s, errs) :=
      match s.ippool.ReleaseIP ip with
      | some p => ({ s with ippool := p }, errs)
      | none => (s, errs ++ ["failed to release ip address"])
    let s := { s with dns := s.dns.RemoveAddress ip }
    -- the source explicitly uses context.Background() for this save
    let (dns, ok) := s.dns.Save backgroundCtx env.stopSaveOk
    let s := { s with dns := dns }
    let errs := if ok then errs else errs ++ ["failed to save hosts file after modification(s)"]
    ({ conn with IP := none }, s, errs)

/-- `worker.stopPortForward` as called with a nilable record pointer:
a nil record faults (`conn.pf` dereferences a nil pointer), modelled as
`none`; the context parameter is ignored by the source (`_ context.Context`). -/
def stopPortForward (env : Env) (_ctx : Ctx) (conn : Option PortForwardConnection)
    (s : WorkerState) : Option (PortForwardConnection × WorkerState × List String) :=
  match conn with
  | none => none
  | some c => some (stopPortForwardConn env c s)

/-- Format of the aggregated stop error (`fmt.Errorf("%v", strs)`). -/
def formatErrs (l : List String) : String :=
  String.intercalate "; " l

/-- Outcome of one worker request: either the process faulted (a Go
runtime panic) or the handler finished with an optional error and the
resulting worker state. -/
inductive CreateResult where
  | fault
  | done (err : Option String) (s : WorkerState)
deriving DecidableEq, Repr

/-- The deferred cleanup of `CreatePortForward`: when the handler is
about to return an error, run the stop procedure on the partially built
record (its own errors are only logged). -/
def failCleanup (env : Env) (msg : String) (pf : PortForwardConnection)
    (w : WorkerState) : CreateResult :=
  let r := stopPortForwardConn env pf w
  .done (some msg) r.2.1

/-- The endpoint-resolution block of `CreatePortForward`: use the
request's `Endpoint` when supplied, else consult `getPodForService` and
keep the pod only when it returned no error. -/
def resolvePod (env : Env) (req : CreatePortForwardRequest) : Option PodInfo :=
  match req.Endpoint with
  | some p => some p
  | none =>
    match getPodForService env.epResult with
    | (p, none) => some p
    | (_, some _) => none

/-- The `ifconfig lo0 alias <ip> up` call of `CreatePortForward`, run on
platforms that need aliases: on success the alias is bound. -/
def aliasStep (env : Env) (ip : Nat) (w : WorkerState) : WorkerState :=
  if env.needsAlias then { w with aliases := ip :: w.aliases } else w

/-- The tail of `worker.CreatePortForward` after the IP was acquired and
stored on the record: loopback alias, hosts entries, hosts save, SPDY
upgrade, endpoint resolution, tunnel creation or demotion to Waiting,
and registration in the active map.  Every error return passes through
the deferred cleanup. -/
def createWithIP (env : Env) (ctx : Ctx) (req : CreatePortForwardRequest)
    (ip : Nat) (pf : PortForwardConnection) (w : WorkerState) : CreateResult :=
  let serviceKey := req.Service.Key
  if env.needsAlias && !env.aliasAddOk then
    failCleanup env "failed to create ip link" pf w
  else
    let w := aliasStep env ip w
    let pf := { pf with Hostnames := req.Hostnames }
    if !env.addHostsOk then
      failCleanup env "failed to add host entry" pf w
    else
      let w := { w with dns := w.dns.AddHosts ip req.Hostnames }
      let saved := w.dns.Save ctx env.createSaveOk
      let w := { w with dns := saved.1 }
      if !saved.2 then
        failCleanup env "failed to save host changes" pf w
      else if !env.upgradeOk then
        failCleanup env "failed to upgrade connection" pf w
      else
        match resolvePod env req with
        | some pod =>
          let pf := { pf with Pod := pod }
          if !env.tunnelOk then
            failCleanup env "failed to create port-forward" pf w
          else
            let t := w.nextTunnel
            let w := { w with nextTunnel := t + 1 }
            let pf := { pf with pf := some t }
            .done none { w with portForwards := mapInsert w.portForwards serviceKey pf }
        | none =>
          let pf := { pf with Status := .Waiting, StatusReason := "No endpoints were found." }
          let r := stopPortForwardConn env pf w
          if r.2.2 ≠ [] then
            -- the stop error is returned, so the deferred cleanup runs again
            failCleanup env (formatErrs r.2.2) r.1 r.2.1
          else
            .done none { r.2.1 with portForwards := mapInsert r.2.1.portForwards serviceKey r.1 }

/-- The create path from the fresh Running record onwards: acquire an IP
from the pool (failing the request when the pool is empty), store it on
the record and continue with `createWithIP`. -/
def createAcquireAndGo (env : Env) (ctx : Ctx) (req : CreatePortForwardRequest)
    (w : WorkerState) : CreateResult :=
  let pf : PortForwardConnection :=
    { Service := req.Service, Pod := ⟨"", ""⟩, IP := none, Ports := req.Ports,
      Hostnames := [], Status := .Running, StatusReason := "", pf := none }
  match w.ippool.AcquireIP with
  | none => failCleanup env "failed to allocate IP" pf w
  | some (ip, pool) =>
    let w := { w with ippool := pool }
    let pf := { pf with IP := some ip }
    createWithIP env ctx req ip pf w

/-- `worker.CreatePortForward`: duplicate guard, touch, optional teardown
of the record being recreated (faulting when that record is absent),
fresh Running record, IP acquisition, then `createWithIP`. -/
def CreatePortForward (env : Env) (ctx : Ctx) (w : WorkerState)
    (req : CreatePortForwardRequest) : CreateResult :=
  let serviceKey := req.Service.Key
  if (w.portForwards.lookup serviceKey).isSome && !req.Recreate then
    .done (some "already have a port-forward for this service") w
  else
    let w := touch w
    if req.Recreate then
      let w := setPortForwardConnectionStatus w req.Service .Recreating req.RecreateReason
      match stopPortForward env ctx (w.portForwards.lookup serviceKey) w with
      | none => .fault
      | some r =>
        createAcquireAndGo env ctx req
          { r.2.1 with portForwards := mapInsert r.2.1.portForwards serviceKey r.1 }
    else
      createAcquireAndGo env ctx req w

/-- `worker.DeletePortForward`: succeed silently on an absent key; else
touch, stop the record (errors only logged), and remove the key. -/
def DeletePortForward (env : Env) (w : WorkerState)
    (req : DeletePortForwardRequest) : Option String × WorkerState :=
  let serviceKey := req.Service.Key
  match w.portForwards.lookup serviceKey with
  | none => (none, w)
  | some conn =>
    let w := touch w
    let r := stopPortForwardConn env conn w
    (none, { r.2.1 with portForwards := mapErase r.2.1.portForwards serviceKey })

/-- One iteration of the `worker.Start` request loop: a create pointer is
handled first, else a delete pointer, else nothing. -/
def processRequest (env : Env) (ctx : Ctx) (w : WorkerState)
    (req : PortForwardRequest) : CreateResult :=
  match req.CreatePortForwardRequest with
  | some c => CreatePortForward env ctx w c
  | none =>
    match req.DeletePortForwardRequest with
    | some d => .done (DeletePortForward env w d).1 (DeletePortForward env w d).2
    | none => .done none w

/-- A finite inbox history processed by the worker loop; a fault kills
the process, so no later request is handled. -/
def runRequests (w : WorkerState) : List (Env × Ctx × PortForwardRequest) → WorkerState
  | [] => w
  | (env, ctx, r) :: rest =>
    match processRequest env ctx w r with
    | .fault => w
    | .done _ w' => runRequests w' rest

/-- The shutdown branch of `worker.Start`: on context cancellation,
iterate the active map's keys and issue `DeletePortForward` for each
record's service, then close the done channel (the returned flag). -/
def shutdownWorker (env : Env) (w : WorkerState) : WorkerState × Bool :=
  ((w.portForwards.map Prod.fst).foldl
    (fun s k =>
      match s.portForwards.lookup k with
      | none => s
      | some c => (DeletePortForward env s ⟨c.Service⟩).2)
    w, true)

/-- The default loopback address `127.0.0.1` as a 32-bit value. -/
def defaultIP : Nat := 127 * 2 ^ 24 + 1

/-- Modelled from the spec: `ProxyOpts` (§6) with the `IPCidr` string
already parsed into base address and mask length. -/
structure ProxyOpts where
  base : Nat
  maskBits : Nat
deriving DecidableEq, Repr

/-- The initial worker state built by `NewPortForwarder` around a pool. -/
def initialWorker (pool : Ipam) : WorkerState :=
  { ippool := pool
    dns := { entries := [], disk := [] }
    aliases := []
    portForwards := []
    lastTouchTime := 0
    closedTunnels := []
    nextTunnel := 0 }

/-- `NewPortForwarder`: build the pool from the CIDR; when the CIDR
contains 127.0.0.1, pre-acquire that address, and fail construction if
the pre-acquisition fails. -/
def NewPortForwarder (opts : ProxyOpts) : Option WorkerState :=
  let pool : Ipam := { base := opts.base, maskBits := opts.maskBits, acquired := [] }
  if pool.containsIP defaultIP then
    match pool.AcquireSpecificIP defaultIP with
    | none => none
    | some p => some (initialWorker p)
  else
    some (initialWorker pool)

/-! The legacy `Proxier` of the second source file, as far as the
duplicate-port guard of `Proxier.Proxy` is concerned. -/

/-- Modelled from the spec: one remote/local port pair of a legacy
`Service` (§3); the type is declared outside the provided sources. -/
structure ServicePort where
  RemotePort : Nat
  LocalPort : Nat
deriving DecidableEq, Repr

/-- Modelled from the spec: the legacy `Service` the `Proxier` manages;
declared outside the provided sources. -/
structure Service where
  Name : String
  Namespace : String
  Ports : List ServicePort
deriving DecidableEq, Repr

/-- `ProxyConnection` restricted to the data the duplicate-port guard
reads (the REST handles carry no observable state). -/
structure ProxyConnection where
  Port : String
  Service : Service
  Pod : PodInfo
deriving DecidableEq, Repr

/-- What the port loop of `Proxier.Proxy` does for one requested local
port: skip an occupied port (with or without the warning log line) or
create a new forward for a free one. -/
inductive ProxyPortOutcome where
  | skipWithWarning
  | skipSilently
  | createForward
deriving DecidableEq, Repr

/-- The duplicate-port guard of `Proxier.Proxy`: look up the requested
local port in the active map; when occupied, warn exactly when the
owner's name differs AND the owner's namespace differs, and skip either
way; when free, create the forward. -/
def proxyPortStep (active : List (Nat × ProxyConnection)) (s : Service)
    (localPort : Nat) : ProxyPortOutcome :=
  match active.lookup localPort with
  | some ap =>
    if ap.Service.Name != s.Name && ap.Service.Namespace != s.Namespace then
      .skipWithWarning
    else
      .skipSilently
  | none => .createForward

/-! Concrete fixtures used by the closed theorems and witnesses. -/

/-- A /29 pool at 127.0.0.0, large enough to exercise every scenario. -/
def fixPool : Ipam := { base := 2130706432, maskBits := 29, acquired := [] }

/-- A Linux environment in which every external operation succeeds and
the Endpoints query finds nothing. -/
def fixEnv : Env :=
  { goosDarwin := false, disableLoopbackAlias := false, aliasAddOk := true,
    aliasRemoveOk := true, addHostsOk := true, createSaveOk := true,
    stopSaveOk := true, upgradeOk := true, epResult := none, tunnelOk := true }

/-- A worker fresh out of construction over `fixPool`. -/
def fixWorker : WorkerState := initialWorker fixPool

/-- A recreate request for service ns/a, as the tunnel-exit task would
enqueue it. -/
def fixRecreateReq : CreatePortForwardRequest :=
  { Service := ⟨"ns", "a"⟩, Hostnames := ["a.svc"], Ports := ["8080:8080"],
    Endpoint := none, Recreate := true, RecreateReason := "stream closed" }

/-! Claim C1. -/

/-- Claim C1 (failing input): a `CreatePortForwardRequest` with
`Recreate = true` handled while the active map holds no record for the
service key does NOT behave as a no-op: the nil map entry is passed to
`stopPortForward`, whose `conn.pf` read dereferences a nil pointer, so
the worker faults instead of never panicking as the spec requires. -/
theorem C1_recreate_on_missing_record_faults :
    CreatePortForward fixEnv backgroundCtx fixWorker fixRecreateReq = CreateResult.fault := by
  decide

/-! Claim C2. -/

/-- Claim C2: in the `Proxier.Proxy` duplicate-port guard, when the
requested local port is occupied, the skip warning is emitted if and
only if the owner's service name differs from the requester's name AND
the owner's namespace differs from the requester's namespace; and in
every occupied case, no new port-forward is created for that port. -/
theorem C2_duplicate_port_guard (active : List (Nat × ProxyConnection))
    (s : Service) (localPort : Nat) (ap : ProxyConnection)
    (h : active.lookup localPort = some ap) :
    (proxyPortStep active s localPort = .skipWithWarning ↔
      (ap.Service.Name ≠ s.Name ∧ ap.Service.Namespace ≠ s.Namespace)) ∧
    proxyPortStep active s localPort ≠ .createForward := by
  unfold proxyPortStep
  rw [h]
  by_cases h1 : ap.Service.Name = s.Name <;>
    by_cases h2 : ap.Service.Namespace = s.Namespace <;>
      simp [h1, h2]

/-- Claim C2 witness: a concrete occupied port whose owner differs in
both coordinates, so the warning fires and no forward is created. -/
theorem C2_duplicate_port_guard_witness :
    (proxyPortStep [(8080, ⟨"8080:8080", ⟨"a", "ns1", []⟩, ⟨"ns1", "pod"⟩⟩)]
        ⟨"b", "ns2", []⟩ 8080 = .skipWithWarning ↔
      ("a" ≠ "b" ∧ "ns1" ≠ "ns2")) ∧
    proxyPortStep [(8080, ⟨"8080:8080", ⟨"a", "ns1", []⟩, ⟨"ns1", "pod"⟩⟩)]
        ⟨"b", "ns2", []⟩ 8080 ≠ .createForward :=
  C2_duplicate_port_guard _ ⟨"b", "ns2", []⟩ 8080
    ⟨"8080:8080", ⟨"a", "ns1", []⟩, ⟨"ns1", "pod"⟩⟩ (by decide)

/-! Claim C6. -/

/-- Claim C6: a create for a service key that already has a record, with
`Recreate = false`, fails with the duplicate error before touching the
last-activity timestamp, and the whole worker state — in particular the
existing record with its IP, status, hostnames and tunnel handle — is
returned completely unchanged. -/
theorem C6_duplicate_create_rejected (env : Env) (ctx : Ctx) (w : WorkerState)
    (req : CreatePortForwardRequest) (c : PortForwardConnection)
    (h : w.portForwards.lookup req.Service.Key = some c)
    (hr : req.Recreate = false) :
    CreatePortForward env ctx w req =
      .done (some "already have a port-forward for this service") w := by
  simp [CreatePortForward, h, hr]

/-- A running record for ns/a, as the happy create path builds it. -/
def fixRunningConn : PortForwardConnection :=
  ⟨⟨"ns", "a"⟩, ⟨"ns", "pod-1"⟩, some 2130706433, ["8080:8080"],
    ["a.svc"], .Running, "", some 0⟩

/-- A worker already managing ns/a. -/
def fixBusyWorker : WorkerState :=
  { fixWorker with portForwards := [("ns/a", fixRunningConn)] }

/-- A plain (non-recreate) create request for ns/a. -/
def fixCreateReq : CreatePortForwardRequest :=
  { fixRecreateReq with Recreate := false }

/-- Claim C6 witness: a worker already managing ns/a rejects a second
create for ns/a and is left byte-identical. -/
theorem C6_duplicate_create_rejected_witness :
    CreatePortForward fixEnv backgroundCtx fixBusyWorker fixCreateReq =
      .done (some "already have a port-forward for this service") fixBusyWorker :=
  C6_duplicate_create_rejected fixEnv backgroundCtx fixBusyWorker fixCreateReq
    fixRunningConn (by decide) (by decide)

/-! Claim C7. -/

/-- An endpoint address qualifies when its target reference is non-nil
and of the Pod kind; this is the selection criterion the claim states. -/
def qualifiesAsPod (a : EndpointAddress) : Bool :=
  match a.TargetRef with
  | some r => r.Kind == PodKind
  | none => false

/-- One unfolding step of the inner address loop. -/
theorem findTargetInAddresses_cons (a : EndpointAddress) (l : List EndpointAddress) :
    findTargetInAddresses (a :: l) =
      match a.TargetRef with
      | none => findTargetInAddresses l
      | some r => if r.Kind ≠ PodKind then findTargetInAddresses l else some r := rfl

/-- The inner loop returns the target of the first qualifying address. -/
theorem findTargetInAddresses_eq_find (l : List EndpointAddress) :
    findTargetInAddresses l = (l.find? qualifiesAsPod).bind EndpointAddress.TargetRef := by
  induction l with
  | nil => rfl
  | cons a rest ih =>
    rw [findTargetInAddresses_cons]
    cases hr : a.TargetRef with
    | none =>
      have hq : qualifiesAsPod a = false := by simp [qualifiesAsPod, hr]
      simp [List.find?_cons, hq, ih]
    | some r =>
      by_cases hk : r.Kind = PodKind
      · have hq : qualifiesAsPod a = true := by simp [qualifiesAsPod, hr, hk]
        simp [List.find?_cons, hq, hk, hr]
      · have hq : qualifiesAsPod a = false := by simp [qualifiesAsPod, hr, hk]
        simp [List.find?_cons, hq, hk, ih]

/-- Splitting the search over an address-list concatenation. -/
theorem findTargetInAddresses_append (xs ys : List EndpointAddress) :
    findTargetInAddresses (xs ++ ys) =
      match findTargetInAddresses xs with
      | some r => some r
      | none => findTargetInAddresses ys := by
  induction xs with
  | nil => rfl
  | cons a rest ih =>
    rw [List.cons_append, findTargetInAddresses_cons, findTargetInAddresses_cons]
    cases hr : a.TargetRef with
    | none => simpa using ih
    | some r =>
      by_cases hk : r.Kind = PodKind
      · simp [hk]
      · simpa [hk] using ih

/-- The labelled double loop equals a search over the flattened address
stream: subsets in provided order, addresses in provided order. -/
theorem findTargetInSubsets_flatten (l : List EndpointSubset) :
    findTargetInSubsets l =
      findTargetInAddresses (l.flatMap EndpointSubset.Addresses) := by
  induction l with
  | nil => rfl
  | cons s rest ih =>
    unfold findTargetInSubsets
    rw [List.flatMap_cons, findTargetInAddresses_append, ih]

/-- Claim C7: on a successful Endpoints query, `getPodForService` scans
the subsets in the provided order and each subset's addresses in the
provided order, and returns the pod identity (namespace and name) of the
first address whose target reference is non-nil and of the Pod kind; if
no address qualifies it returns the "failed to find endpoint for
service" error together with an empty `PodInfo`. -/
theorem C7_resolver_first_qualifying_address (ep : Endpoints) :
    getPodForService (some ep) =
      match ((ep.Subsets.flatMap EndpointSubset.Addresses).find? qualifiesAsPod).bind
          EndpointAddress.TargetRef with
      | some r => (⟨r.Namespace, r.Name⟩, none)
      | none => (⟨"", ""⟩, some "failed to find endpoint for service") := by
  show (match findTargetInSubsets ep.Subsets with
    | some r => ((⟨r.Namespace, r.Name⟩ : PodInfo), (none : Option String))
    | none => ((⟨"", ""⟩ : PodInfo), some "failed to find endpoint for service")) = _
  rw [findTargetInSubsets_flatten, findTargetInAddresses_eq_find]

/-! Helper lemmas about the stop procedure, shared by several claims. -/

/-- Closing a tunnel changes no state component but `closedTunnels`. -/
theorem closeTunnel_ippool (s : WorkerState) (t : Nat) :
    (closeTunnel s t).ippool = s.ippool := by
  unfold closeTunnel; split <;> rfl

theorem closeTunnel_dns (s : WorkerState) (t : Nat) :
    (closeTunnel s t).dns = s.dns := by
  unfold closeTunnel; split <;> rfl

theorem closeTunnel_aliases (s : WorkerState) (t : Nat) :
    (closeTunnel s t).aliases = s.aliases := by
  unfold closeTunnel; split <;> rfl

theorem closeTunnel_portForwards (s : WorkerState) (t : Nat) :
    (closeTunnel s t).portForwards = s.portForwards := by
  unfold closeTunnel; split <;> rfl

theorem closeTunnel_lastTouchTime (s : WorkerState) (t : Nat) :
    (closeTunnel s t).lastTouchTime = s.lastTouchTime := by
  unfold closeTunnel; split <;> rfl

theorem closeTunnel_nextTunnel (s : WorkerState) (t : Nat) :
    (closeTunnel s t).nextTunnel = s.nextTunnel := by
  unfold closeTunnel; split <;> rfl

/-- The closed handle is recorded. -/
theorem mem_closeTunnel (s : WorkerState) (t : Nat) :
    t ∈ (closeTunnel s t).closedTunnels := by
  unfold closeTunnel
  split
  · next h => exact List.mem_of_elem_eq_true h
  · exact List.mem_cons_self t _

/-- The stop procedure always leaves the record's IP field empty. -/
theorem stopConn_resultIP (env : Env) (conn : PortForwardConnection) (s : WorkerState) :
    (stopPortForwardConn env conn s).1.IP = none := by
  unfold stopPortForwardConn
  cases hip : conn.IP <;> cases hpf : conn.pf <;> simp [hip]

/-- On a record whose IP is already empty, the stop procedure performs
no alias removal, no pool release and no hosts mutation, and collects no
error; it only re-closes the tunnel handle. -/
theorem stopConn_of_IP_none (env : Env) (conn : PortForwardConnection) (s : WorkerState)
    (h : conn.IP = none) :
    (stopPortForwardConn env conn s).1 = conn ∧
    (stopPortForwardConn env conn s).2.1.ippool = s.ippool ∧
    (stopPortForwardConn env conn s).2.1.dns = s.dns ∧
    (stopPortForwardConn env conn s).2.1.aliases = s.aliases ∧
    (stopPortForwardConn env conn s).2.1.portForwards = s.portForwards ∧
    (stopPortForwardConn env conn s).2.1.lastTouchTime = s.lastTouchTime ∧
    (stopPortForwardConn env conn s).2.1.nextTunnel = s.nextTunnel ∧
    (stopPortForwardConn env conn s).2.2 = [] := by
  unfold stopPortForwardConn
  rw [h]
  cases hpf : conn.pf with
  | none => simp
  | some t =>
    simp [closeTunnel_ippool, closeTunnel_dns, closeTunnel_aliases,
      closeTunnel_portForwards, closeTunnel_lastTouchTime, closeTunnel_nextTunnel]

/-- Full characterization of the stop procedure on a record holding an
IP: the alias is unbound exactly when the platform needs aliases and the
subprocess succeeds, the IP returns to the pool's free set exactly when
it was acquired, the hosts line for the IP disappears from the managed
section, the section is persisted exactly when the (background-context)
save succeeds, the record's IP is emptied, and the error list is empty
iff every fallible step succeeded — no step is skipped because an
earlier one failed. -/
theorem stopConn_of_IP_some (env : Env) (conn : PortForwardConnection) (s : WorkerState)
    (ip : Nat) (h : conn.IP = some ip) :
    (stopPortForwardConn env conn s).1 = { conn with IP := none } ∧
    (stopPortForwardConn env conn s).2.1.aliases =
      (if env.needsAlias && env.aliasRemoveOk then s.aliases.erase ip else s.aliases) ∧
    (stopPortForwardConn env conn s).2.1.ippool.acquired =
      (if s.ippool.acquired.contains ip then s.ippool.acquired.erase ip
       else s.ippool.acquired) ∧
    (stopPortForwardConn env conn s).2.1.ippool.base = s.ippool.base ∧
    (stopPortForwardConn env conn s).2.1.ippool.maskBits = s.ippool.maskBits ∧
    (stopPortForwardConn env conn s).2.1.dns.entries =
      s.dns.entries.filter (fun e => !(e.1 == ip)) ∧
    (stopPortForwardConn env conn s).2.1.dns.disk =
      (if env.stopSaveOk then s.dns.entries.filter (fun e => !(e.1 == ip))
       else s.dns.disk) ∧
    (stopPortForwardConn env conn s).2.1.portForwards = s.portForwards ∧
    (stopPortForwardConn env conn s).2.1.lastTouchTime = s.lastTouchTime ∧
    (stopPortForwardConn env conn s).2.1.nextTunnel = s.nextTunnel ∧
    ((stopPortForwardConn env conn s).2.2 = [] ↔
      ((env.needsAlias = true → env.aliasRemoveOk = true) ∧
        s.ippool.acquired.contains ip = true ∧ env.stopSaveOk = true)) := by
  unfold stopPortForwardConn
  rw [h]
  cases hpf : conn.pf <;>
    cases hna : env.needsAlias <;>
      cases hro : env.aliasRemoveOk <;>
        by_cases hacq : ip ∈ s.ippool.acquired <;>
          cases hsv : env.stopSaveOk <;>
            simp [hna, hro, hacq, hsv, Ipam.ReleaseIP, HostsFile.RemoveAddress,
              HostsFile.Save, backgroundCtx, closeTunnel_ippool, closeTunnel_dns,
              closeTunnel_aliases, closeTunnel_portForwards,
              closeTunnel_lastTouchTime, closeTunnel_nextTunnel]

/-- The tunnel handle, when present, is recorded as closed by the stop
procedure (the `conn.pf.Close()` call, which comes first). -/
theorem stopConn_mem_closedTunnels (env : Env) (conn : PortForwardConnection)
    (s : WorkerState) (t : Nat) (h : conn.pf = some t) :
    t ∈ (stopPortForwardConn env conn s).2.1.closedTunnels := by
  unfold stopPortForwardConn
  rw [h]
  cases hip : conn.IP with
  | none => simpa using mem_closeTunnel s t
  | some ip =>
    cases hna : env.needsAlias <;>
      cases hro : env.aliasRemoveOk <;>
        by_cases hacq : ip ∈ s.ippool.acquired <;>
          cases hsv : env.stopSaveOk <;>
            simpa [hna, hro, hacq, hsv, Ipam.ReleaseIP, HostsFile.RemoveAddress,
              HostsFile.Save, backgroundCtx, closeTunnel_ippool, closeTunnel_dns,
              closeTunnel_aliases] using mem_closeTunnel s t

/-! Claim C5. -/

/-- Claim C5: the stop procedure for a single record first closes the
tunnel when one is present; only if the record's IP is non-empty does it
remove the loopback alias (on platforms that need it and when not
disabled), release the IP to the pool, remove the hosts line for the IP
and save the hosts file — the save being made with the uncancellable
background context, so it persists exactly when the disk write itself
succeeds (`stopSaveOk`), independent of any cancelled request context;
every step error is collected, later steps run even when earlier ones
fail, and the procedure reports no error iff every fallible step
succeeded. -/
theorem C5_stop_procedure (env : Env) (conn : PortForwardConnection) (s : WorkerState) :
    (∀ t, conn.pf = some t → t ∈ (stopPortForwardConn env conn s).2.1.closedTunnels) ∧
    (conn.IP = none →
      (stopPortForwardConn env conn s).2.1.ippool = s.ippool ∧
      (stopPortForwardConn env conn s).2.1.dns = s.dns ∧
      (stopPortForwardConn env conn s).2.1.aliases = s.aliases ∧
      (stopPortForwardConn env conn s).2.2 = []) ∧
    (∀ ip, conn.IP = some ip →
      (stopPortForwardConn env conn s).2.1.aliases =
        (if env.needsAlias && env.aliasRemoveOk then s.aliases.erase ip
         else s.aliases) ∧
      (stopPortForwardConn env conn s).2.1.ippool.acquired =
        (if s.ippool.acquired.contains ip then s.ippool.acquired.erase ip
         else s.ippool.acquired) ∧
      (stopPortForwardConn env conn s).2.1.dns.entries =
        s.dns.entries.filter (fun e => !(e.1 == ip)) ∧
      (env.stopSaveOk = true →
        (stopPortForwardConn env conn s).2.1.dns.disk =
          (stopPortForwardConn env conn s).2.1.dns.entries) ∧
      (env.stopSaveOk = false →
        (stopPortForwardConn env conn s).2.1.dns.disk = s.dns.disk) ∧
      ((stopPortForwardConn env conn s).2.2 = [] ↔
        ((env.needsAlias = true → env.aliasRemoveOk = true) ∧
          s.ippool.acquired.contains ip = true ∧ env.stopSaveOk = true))) := by
  refine ⟨fun t ht => stopConn_mem_closedTunnels env conn s t ht, ?_, ?_⟩
  · intro hip
    obtain ⟨-, h2, h3, h4, -, -, -, h8⟩ := stopConn_of_IP_none env conn s hip
    exact ⟨h2, h3, h4, h8⟩
  · intro ip hip
    obtain ⟨-, h2, h3, -, -, h6, h7, -, -, -, h11⟩ := stopConn_of_IP_some env conn s ip hip
    refine ⟨h2, h3, h6, ?_, ?_, h11⟩
    · intro hsv
      rw [h7, h6, hsv]
      simp
    · intro hsv
      rw [h7, hsv]
      simp

/-- A worker state in which ns/a's record owns IP 2130706433, a matching
hosts line, and the acquired pool entry. -/
def fixStopWorker : WorkerState :=
  { ippool := { fixPool with acquired := [2130706433] }
    dns := { entries := [(2130706433, ["a.svc"])], disk := [(2130706433, ["a.svc"])] }
    aliases := []
    portForwards := [("ns/a", fixRunningConn)]
    lastTouchTime := 0
    closedTunnels := []
    nextTunnel := 1 }

/-- Claim C5 witness: on the concrete record holding IP 2130706433, the
stop procedure reports no error once every fallible step succeeds. -/
theorem C5_stop_procedure_witness :
    fixRunningConn.IP = some 2130706433 ∧
    (stopPortForwardConn fixEnv fixRunningConn fixStopWorker).2.2 = [] :=
  ⟨by decide, by
    have h :=
      ((C5_stop_procedure fixEnv fixRunningConn fixStopWorker).2.2 2130706433
        (by decide)).2.2.2.2.2
    exact h.mpr ⟨fun hna => by simp [fixEnv, Env.needsAlias] at hna, by decide, by decide⟩⟩

/-! Claim C10. -/

/-- Claim C10: after the stop procedure returns on a record — whatever
errors its steps reported — the record's IP field is empty, and a second
invocation of the stop procedure on that record (in any environment and
from any worker state) performs no pool release, no hosts-file mutation
and no alias removal, and reports no error: a record's IP, alias and
hosts entry are never released twice. -/
theorem C10_stop_never_releases_twice (env env' : Env) (conn : PortForwardConnection)
    (s s' : WorkerState) :
    (stopPortForwardConn env conn s).1.IP = none ∧
    (stopPortForwardConn env' (stopPortForwardConn env conn s).1 s').2.1.ippool = s'.ippool ∧
    (stopPortForwardConn env' (stopPortForwardConn env conn s).1 s').2.1.dns = s'.dns ∧
    (stopPortForwardConn env' (stopPortForwardConn env conn s).1 s').2.1.aliases = s'.aliases ∧
    (stopPortForwardConn env' (stopPortForwardConn env conn s).1 s').2.2 = [] := by
  have h1 := stopConn_resultIP env conn s
  obtain ⟨-, h2, h3, h4, -, -, -, h8⟩ :=
    stopConn_of_IP_none env' (stopPortForwardConn env conn s).1 s' h1
  exact ⟨h1, h2, h3, h4, h8⟩

/-! Helper lemmas for the create path (claims C3 and C4). -/

/-- Filtering out an absent key is the identity. -/
theorem lookup_none_filter_self (l : List (Nat × List String)) (ip : Nat)
    (h : List.lookup ip l = none) :
    l.filter (fun e => !(e.1 == ip)) = l := by
  induction l with
  | nil => rfl
  | cons e t ih =>
    cases hbe : (ip == e.1) with
    | true => simp [List.lookup, hbe] at h
    | false =>
      simp only [List.lookup, hbe] at h
      have h1 : (e.1 == ip) = false := by
        simp only [beq_eq_false_iff_ne] at hbe ⊢
        exact fun hh => hbe hh.symm
      simp [List.filter_cons, h1, ih h]

/-- Adding a line for a fresh IP appends it to the managed section. -/
theorem AddHosts_fresh (f : HostsFile) (ip : Nat) (names : List String)
    (h : List.lookup ip f.entries = none) :
    f.AddHosts ip names = { f with entries := f.entries ++ [(ip, names)] } := by
  unfold HostsFile.AddHosts
  rw [h]
  rfl

/-- Removing a freshly appended line restores the managed section. -/
theorem append_single_filter (l : List (Nat × List String)) (ip : Nat)
    (names : List String) (h : List.lookup ip l = none) :
    (l ++ [(ip, names)]).filter (fun e => !(e.1 == ip)) = l := by
  rw [List.filter_append, lookup_none_filter_self l ip h]
  simp

/-- First-fit acquisition hands out an address that was free, and its
only pool effect is recording that address as acquired. -/
theorem AcquireIP_spec (p : Ipam) (ip : Nat) (p' : Ipam)
    (h : p.AcquireIP = some (ip, p')) :
    ip ∉ p.acquired ∧ p' = { p with acquired := ip :: p.acquired } := by
  unfold Ipam.AcquireIP at h
  cases hf : p.candidates.find? (fun x => !(p.acquired.contains x)) with
  | none => rw [hf] at h; cases h
  | some x =>
    rw [hf] at h
    have hx := List.find?_some hf
    simp only [Option.some.injEq, Prod.mk.injEq] at h
    obtain ⟨h1, h2⟩ := h
    subst h1
    subst h2
    constructor
    · simpa using hx
    · rfl

/-- With no tunnel handle on the record, the stop procedure leaves the
closed-tunnel ledger alone. -/
theorem stopConn_closedTunnels_of_pf_none (env : Env) (conn : PortForwardConnection)
    (s : WorkerState) (h : conn.pf = none) :
    (stopPortForwardConn env conn s).2.1.closedTunnels = s.closedTunnels := by
  unfold stopPortForwardConn
  rw [h]
  cases hip : conn.IP with
  | none => rfl
  | some ip =>
    cases hna : env.needsAlias <;>
      cases hro : env.aliasRemoveOk <;>
        by_cases hacq : ip ∈ s.ippool.acquired <;>
          cases hsv : env.stopSaveOk <;>
            simp [hna, hro, hacq, hsv, Ipam.ReleaseIP, HostsFile.RemoveAddress,
              HostsFile.Save, backgroundCtx]

/-- The deferred cleanup unfolded: it reports the triggering message and
the state left by the stop procedure. -/
theorem failCleanup_eq (env : Env) (msg : String) (pf : PortForwardConnection)
    (w : WorkerState) :
    failCleanup env msg pf w = .done (some msg) (stopPortForwardConn env pf w).2.1 := rfl

theorem stopConn_st_conn (env : Env) (conn : PortForwardConnection) (s : WorkerState)
    (ip : Nat) (h : conn.IP = some ip) :
    (stopPortForwardConn env conn s).1 = { conn with IP := none } :=
  (stopConn_of_IP_some env conn s ip h).1

theorem stopConn_st_aliases (env : Env) (conn : PortForwardConnection) (s : WorkerState)
    (ip : Nat) (h : conn.IP = some ip) :
    (stopPortForwardConn env conn s).2.1.aliases =
      (if env.needsAlias && env.aliasRemoveOk then s.aliases.erase ip else s.aliases) :=
  (stopConn_of_IP_some env conn s ip h).2.1

theorem stopConn_st_acquired (env : Env) (conn : PortForwardConnection) (s : WorkerState)
    (ip : Nat) (h : conn.IP = some ip) :
    (stopPortForwardConn env conn s).2.1.ippool.acquired =
      (if s.ippool.acquired.contains ip then s.ippool.acquired.erase ip
       else s.ippool.acquired) :=
  (stopConn_of_IP_some env conn s ip h).2.2.1

theorem stopConn_st_base (env : Env) (conn : PortForwardConnection) (s : WorkerState)
    (ip : Nat) (h : conn.IP = some ip) :
    (stopPortForwardConn env conn s).2.1.ippool.base = s.ippool.base :=
  (stopConn_of_IP_some env conn s ip h).2.2.2.1

theorem stopConn_st_maskBits (env : Env) (conn : PortForwardConnection) (s : WorkerState)
    (ip : Nat) (h : conn.IP = some ip) :
    (stopPortForwardConn env conn s).2.1.ippool.maskBits = s.ippool.maskBits :=
  (stopConn_of_IP_some env conn s ip h).2.2.2.2.1

theorem stopConn_st_entries (env : Env) (conn : PortForwardConnection) (s : WorkerState)
    (ip : Nat) (h : conn.IP = some ip) :
    (stopPortForwardConn env conn s).2.1.dns.entries =
      s.dns.entries.filter (fun e => !(e.1 == ip)) :=
  (stopConn_of_IP_some env conn s ip h).2.2.2.2.2.1

theorem stopConn_st_disk (env : Env) (conn : PortForwardConnection) (s : WorkerState)
    (ip : Nat) (h : conn.IP = some ip) :
    (stopPortForwardConn env conn s).2.1.dns.disk =
      (if env.stopSaveOk then s.dns.entries.filter (fun e => !(e.1 == ip))
       else s.dns.disk) :=
  (stopConn_of_IP_some env conn s ip h).2.2.2.2.2.2.1

theorem stopConn_st_portForwards (env : Env) (conn : PortForwardConnection)
    (s : WorkerState) (ip : Nat) (h : conn.IP = some ip) :
    (stopPortForwardConn env conn s).2.1.portForwards = s.portForwards :=
  (stopConn_of_IP_some env conn s ip h).2.2.2.2.2.2.2.1

theorem stopConn_st_lastTouchTime (env : Env) (conn : PortForwardConnection)
    (s : WorkerState) (ip : Nat) (h : conn.IP = some ip) :
    (stopPortForwardConn env conn s).2.1.lastTouchTime = s.lastTouchTime :=
  (stopConn_of_IP_some env conn s ip h).2.2.2.2.2.2.2.2.1

theorem stopConn_st_nextTunnel (env : Env) (conn : PortForwardConnection)
    (s : WorkerState) (ip : Nat) (h : conn.IP = some ip) :
    (stopPortForwardConn env conn s).2.1.nextTunnel = s.nextTunnel :=
  (stopConn_of_IP_some env conn s ip h).2.2.2.2.2.2.2.2.2.1

theorem stopConn_st_errs_nil (env : Env) (conn : PortForwardConnection)
    (s : WorkerState) (ip : Nat) (h : conn.IP = some ip)
    (hrm : env.aliasRemoveOk = true) (hsv : env.stopSaveOk = true)
    (hacq : ip ∈ s.ippool.acquired) :
    (stopPortForwardConn env conn s).2.2 = [] :=
  (stopConn_of_IP_some env conn s ip h).2.2.2.2.2.2.2.2.2.2.mpr
    ⟨fun _ => hrm, by simpa using hacq, hsv⟩

theorem aliasStep_ippool (env : Env) (ip : Nat) (w : WorkerState) :
    (aliasStep env ip w).ippool = w.ippool := by
  unfold aliasStep; split <;> rfl

theorem aliasStep_dns (env : Env) (ip : Nat) (w : WorkerState) :
    (aliasStep env ip w).dns = w.dns := by
  unfold aliasStep; split <;> rfl

theorem aliasStep_portForwards (env : Env) (ip : Nat) (w : WorkerState) :
    (aliasStep env ip w).portForwards = w.portForwards := by
  unfold aliasStep; split <;> rfl

theorem aliasStep_lastTouchTime (env : Env) (ip : Nat) (w : WorkerState) :
    (aliasStep env ip w).lastTouchTime = w.lastTouchTime := by
  unfold aliasStep; split <;> rfl

theorem aliasStep_closedTunnels (env : Env) (ip : Nat) (w : WorkerState) :
    (aliasStep env ip w).closedTunnels = w.closedTunnels := by
  unfold aliasStep; split <;> rfl

theorem aliasStep_nextTunnel (env : Env) (ip : Nat) (w : WorkerState) :
    (aliasStep env ip w).nextTunnel = w.nextTunnel := by
  unfold aliasStep; split <;> rfl

theorem aliasStep_aliases (env : Env) (ip : Nat) (w : WorkerState) :
    (aliasStep env ip w).aliases =
      (if env.needsAlias = true then ip :: w.aliases else w.aliases) := by
  unfold aliasStep; split <;> simp_all

/-- The deferred cleanup, applied to a partially built record whose IP is
the freshly acquired one, restores every resource-bearing component of
the state to its pre-acquisition value (relative to a base state `w`
that held no stale trace of the IP). -/
theorem cleanup_restores (env : Env) (msg : String) (pfX : PortForwardConnection)
    (W w : WorkerState) (ip : Nat) (names : List String)
    (hip : pfX.IP = some ip) (hpf : pfX.pf = none)
    (hrm : env.aliasRemoveOk = true) (hsv : env.stopSaveOk = true)
    (hacq : ip ∈ w.ippool.acquired) (hal : ip ∉ w.aliases)
    (hdns : List.lookup ip w.dns.entries = none)
    (hpool : W.ippool = w.ippool)
    (hA1 : env.needsAlias = false → W.aliases = w.aliases)
    (hA2 : env.needsAlias = true → W.aliases = w.aliases ∨ W.aliases = ip :: w.aliases)
    (hent : W.dns.entries = w.dns.entries ∨
      W.dns.entries = w.dns.entries ++ [(ip, names)])
    (hpfs : W.portForwards = w.portForwards)
    (hlt : W.lastTouchTime = w.lastTouchTime)
    (hct : W.closedTunnels = w.closedTunnels)
    (hnt : W.nextTunnel = w.nextTunnel) :
    ∀ e s', failCleanup env msg pfX W = .done (some e) s' →
      s'.ippool.acquired = w.ippool.acquired.erase ip ∧
      s'.ippool.base = w.ippool.base ∧
      s'.ippool.maskBits = w.ippool.maskBits ∧
      s'.aliases = w.aliases ∧
      s'.dns.entries = w.dns.entries ∧
      s'.dns.disk = w.dns.entries ∧
      s'.portForwards = w.portForwards ∧
      s'.lastTouchTime = w.lastTouchTime ∧
      s'.closedTunnels = w.closedTunnels ∧
      s'.nextTunnel = w.nextTunnel := by
  intro e s' heq
  rw [failCleanup_eq] at heq
  injection heq with h1 h2
  subst h2
  have hentF : (stopPortForwardConn env pfX W).2.1.dns.entries = w.dns.entries := by
    rw [stopConn_st_entries env pfX W ip hip]
    rcases hent with h | h <;> rw [h]
    · exact lookup_none_filter_self w.dns.entries ip hdns
    · exact append_single_filter w.dns.entries ip names hdns
  refine ⟨?_, ?_, ?_, ?_, hentF, ?_, ?_, ?_, ?_, ?_⟩
  · rw [stopConn_st_acquired env pfX W ip hip, hpool]
    simp [hacq]
  · rw [stopConn_st_base env pfX W ip hip, hpool]
  · rw [stopConn_st_maskBits env pfX W ip hip, hpool]
  · rw [stopConn_st_aliases env pfX W ip hip, hrm]
    cases hna : env.needsAlias with
    | false => simp [hA1 hna]
    | true =>
      rcases hA2 hna with h | h <;>
        simp [h, List.erase_cons_head, List.erase_of_not_mem hal]
  · rw [stopConn_st_disk env pfX W ip hip, hsv]
    simp only [if_true]
    rcases hent with h | h <;> rw [h]
    · exact lookup_none_filter_self w.dns.entries ip hdns
    · exact append_single_filter w.dns.entries ip names hdns
  · rw [stopConn_st_portForwards env pfX W ip hip, hpfs]
  · rw [stopConn_st_lastTouchTime env pfX W ip hip, hlt]
  · rw [stopConn_closedTunnels_of_pf_none env pfX W hpf, hct]
  · rw [stopConn_st_nextTunnel env pfX W ip hip, hnt]

/-! Reduction of `createWithIP` at each of its decision sites. -/

theorem createWithIP_alias_fail (env : Env) (ctx : Ctx) (req : CreatePortForwardRequest)
    (ip : Nat) (pf : PortForwardConnection) (w : WorkerState)
    (h1 : (env.needsAlias && !env.aliasAddOk) = true) :
    createWithIP env ctx req ip pf w = failCleanup env "failed to create ip link" pf w := by
  simp [createWithIP, h1]

theorem createWithIP_addHosts_fail (env : Env) (ctx : Ctx) (req : CreatePortForwardRequest)
    (ip : Nat) (pf : PortForwardConnection) (w : WorkerState)
    (h1 : (env.needsAlias && !env.aliasAddOk) = false) (h2 : env.addHostsOk = false) :
    createWithIP env ctx req ip pf w =
      failCleanup env "failed to add host entry"
        { pf with Hostnames := req.Hostnames } (aliasStep env ip w) := by
  simp [createWithIP, h1, h2]

theorem createWithIP_save_fail (env : Env) (ctx : Ctx) (req : CreatePortForwardRequest)
    (ip : Nat) (pf : PortForwardConnection) (w : WorkerState)
    (h1 : (env.needsAlias && !env.aliasAddOk) = false) (h2 : env.addHostsOk = true)
    (hS : (ctx.cancelled || !env.createSaveOk) = true) :
    createWithIP env ctx req ip pf w =
      failCleanup env "failed to save host changes"
        { pf with Hostnames := req.Hostnames }
        { aliasStep env ip w with
            dns := (aliasStep env ip w).dns.AddHosts ip req.Hostnames } := by
  simp [createWithIP, h1, h2, HostsFile.Save, hS]

theorem createWithIP_upgrade_fail (env : Env) (ctx : Ctx) (req : CreatePortForwardRequest)
    (ip : Nat) (pf : PortForwardConnection) (w : WorkerState)
    (h1 : (env.needsAlias && !env.aliasAddOk) = false) (h2 : env.addHostsOk = true)
    (hS : (ctx.cancelled || !env.createSaveOk) = false) (h4 : env.upgradeOk = false) :
    createWithIP env ctx req ip pf w =
      failCleanup env "failed to upgrade connection"
        { pf with Hostnames := req.Hostnames }
        { aliasStep env ip w with
            dns := { (aliasStep env ip w).dns.AddHosts ip req.Hostnames with
              disk := ((aliasStep env ip w).dns.AddHosts ip req.Hostnames).entries } } := by
  simp [createWithIP, h1, h2, HostsFile.Save, hS, h4]

theorem createWithIP_tunnel_fail (env : Env) (ctx : Ctx) (req : CreatePortForwardRequest)
    (ip : Nat) (pf : PortForwardConnection) (w : WorkerState) (pod : PodInfo)
    (h1 : (env.needsAlias && !env.aliasAddOk) = false) (h2 : env.addHostsOk = true)
    (hS : (ctx.cancelled || !env.createSaveOk) = false) (h4 : env.upgradeOk = true)
    (hRP : resolvePod env req = some pod) (h6 : env.tunnelOk = false) :
    createWithIP env ctx req ip pf w =
      failCleanup env "failed to create port-forward"
        { pf with Hostnames := req.Hostnames, Pod := pod }
        { aliasStep env ip w with
            dns := { (aliasStep env ip w).dns.AddHosts ip req.Hostnames with
              disk := ((aliasStep env ip w).dns.AddHosts ip req.Hostnames).entries } } := by
  simp [createWithIP, h1, h2, HostsFile.Save, hS, h4, hRP, h6]

/-- Discriminator: did the handler finish successfully? -/
def CreateResult.isDoneNone : CreateResult → Bool
  | .done none _ => true
  | _ => false

theorem isDoneNone_exists (r : CreateResult) (h : r.isDoneNone = true) :
    ∃ s, r = .done none s := by
  cases r with
  | fault => cases h
  | done e s =>
    cases e with
    | none => exact ⟨s, rfl⟩
    | some m => cases h

theorem createWithIP_tunnel_ok (env : Env) (ctx : Ctx) (req : CreatePortForwardRequest)
    (ip : Nat) (pf : PortForwardConnection) (w : WorkerState) (pod : PodInfo)
    (h1 : (env.needsAlias && !env.aliasAddOk) = false) (h2 : env.addHostsOk = true)
    (hS : (ctx.cancelled || !env.createSaveOk) = false) (h4 : env.upgradeOk = true)
    (hRP : resolvePod env req = some pod) (h6 : env.tunnelOk = true) :
    ∃ s, createWithIP env ctx req ip pf w = .done none s :=
  isDoneNone_exists _ (by
    simp [createWithIP, h1, h2, HostsFile.Save, hS, h4, hRP, h6,
      CreateResult.isDoneNone])

theorem createWithIP_waiting (env : Env) (ctx : Ctx) (req : CreatePortForwardRequest)
    (ip : Nat) (pf : PortForwardConnection) (w : WorkerState)
    (hip : pf.IP = some ip) (hpf : pf.pf = none)
    (hrm : env.aliasRemoveOk = true) (hsv : env.stopSaveOk = true)
    (hacq : ip ∈ w.ippool.acquired)
    (h1 : (env.needsAlias && !env.aliasAddOk) = false) (h2 : env.addHostsOk = true)
    (hS : (ctx.cancelled || !env.createSaveOk) = false) (h4 : env.upgradeOk = true)
    (hRP : resolvePod env req = none) :
    ∃ s, createWithIP env ctx req ip pf w = .done none s :=
  isDoneNone_exists _ (by
    simp [createWithIP, h1, h2, HostsFile.Save, hS, h4, hRP,
      stopConn_st_errs_nil, hip, hpf, hrm, hsv, hacq, aliasStep_ippool,
      CreateResult.isDoneNone])

/-- Behaviour of the create tail after IP acquisition, on a worker that
held no stale trace of the acquired IP: every error return has passed
through the deferred stop and left the pool, aliases, hosts file and
active map exactly as before the acquisition (the IP released, nothing
retained); a success return implies every step up to the tunnel
succeeded; and the tail never faults. -/
theorem createWithIP_spec (env : Env) (ctx : Ctx) (req : CreatePortForwardRequest)
    (ip : Nat) (pf : PortForwardConnection) (w : WorkerState)
    (hip : pf.IP = some ip) (hpf : pf.pf = none)
    (hrm : env.aliasRemoveOk = true) (hsv : env.stopSaveOk = true)
    (hacq : ip ∈ w.ippool.acquired) (hal : ip ∉ w.aliases)
    (hdns : List.lookup ip w.dns.entries = none) :
    (∀ e s', createWithIP env ctx req ip pf w = .done (some e) s' →
      s'.ippool.acquired = w.ippool.acquired.erase ip ∧
      s'.ippool.base = w.ippool.base ∧
      s'.ippool.maskBits = w.ippool.maskBits ∧
      s'.aliases = w.aliases ∧
      s'.dns.entries = w.dns.entries ∧
      s'.dns.disk = w.dns.entries ∧
      s'.portForwards = w.portForwards ∧
      s'.lastTouchTime = w.lastTouchTime ∧
      s'.closedTunnels = w.closedTunnels ∧
      s'.nextTunnel = w.nextTunnel) ∧
    (∀ s', createWithIP env ctx req ip pf w = .done none s' →
      (env.needsAlias = true → env.aliasAddOk = true) ∧ env.addHostsOk = true ∧
      ctx.cancelled = false ∧ env.createSaveOk = true ∧ env.upgradeOk = true ∧
      (∀ pod, resolvePod env req = some pod → env.tunnelOk = true)) ∧
    createWithIP env ctx req ip pf w ≠ .fault := by
  have hA1step : env.needsAlias = false → (aliasStep env ip w).aliases = w.aliases := by
    intro h; simp [aliasStep_aliases, h]
  have hA2step : env.needsAlias = true →
      (aliasStep env ip w).aliases = w.aliases ∨
      (aliasStep env ip w).aliases = ip :: w.aliases := by
    intro h; right; simp [aliasStep_aliases, h]
  have hentAdd : ((aliasStep env ip w).dns.AddHosts ip req.Hostnames).entries =
      w.dns.entries ++ [(ip, req.Hostnames)] := by
    rw [aliasStep_dns, AddHosts_fresh w.dns ip req.Hostnames hdns]
  cases h1 : env.needsAlias && !env.aliasAddOk with
  | true =>
    rw [createWithIP_alias_fail env ctx req ip pf w h1]
    refine ⟨cleanup_restores env _ pf w w ip req.Hostnames hip hpf hrm hsv hacq hal hdns
      rfl (fun _ => rfl) (fun _ => Or.inl rfl) (Or.inl rfl) rfl rfl rfl rfl, ?_, ?_⟩
    · intro s' heq
      rw [failCleanup_eq] at heq
      simp at heq
    · rw [failCleanup_eq]
      simp
  | false =>
    cases h2 : env.addHostsOk with
    | false =>
      rw [createWithIP_addHosts_fail env ctx req ip pf w h1 h2]
      refine ⟨cleanup_restores env _ _ (aliasStep env ip w) w ip req.Hostnames hip hpf
        hrm hsv hacq hal hdns (aliasStep_ippool env ip w) hA1step hA2step
        (Or.inl (by rw [aliasStep_dns])) (aliasStep_portForwards env ip w)
        (aliasStep_lastTouchTime env ip w) (aliasStep_closedTunnels env ip w)
        (aliasStep_nextTunnel env ip w), ?_, ?_⟩
      · intro s' heq
        rw [failCleanup_eq] at heq
        simp at heq
      · rw [failCleanup_eq]
        simp
    | true =>
      cases hS : ctx.cancelled || !env.createSaveOk with
      | true =>
        rw [createWithIP_save_fail env ctx req ip pf w h1 h2 hS]
        refine ⟨cleanup_restores env _ _ _ w ip req.Hostnames hip hpf
          hrm hsv hacq hal hdns (aliasStep_ippool env ip w) hA1step hA2step
          (Or.inr hentAdd) (aliasStep_portForwards env ip w)
          (aliasStep_lastTouchTime env ip w) (aliasStep_closedTunnels env ip w)
          (aliasStep_nextTunnel env ip w), ?_, ?_⟩
        · intro s' heq
          rw [failCleanup_eq] at heq
          simp at heq
        · rw [failCleanup_eq]
          simp
      | false =>
        obtain ⟨hcc, hcs⟩ : ctx.cancelled = false ∧ env.createSaveOk = true := by
          simpa using hS
        cases h4 : env.upgradeOk with
        | false =>
          rw [createWithIP_upgrade_fail env ctx req ip pf w h1 h2 hS h4]
          refine ⟨cleanup_restores env _ _ _ w ip req.Hostnames hip hpf
            hrm hsv hacq hal hdns (aliasStep_ippool env ip w) hA1step hA2step
            (Or.inr hentAdd) (aliasStep_portForwards env ip w)
            (aliasStep_lastTouchTime env ip w) (aliasStep_closedTunnels env ip w)
            (aliasStep_nextTunnel env ip w), ?_, ?_⟩
          · intro s' heq
            rw [failCleanup_eq] at heq
            simp at heq
          · rw [failCleanup_eq]
            simp
        | true =>
          have hflags : (env.needsAlias = true → env.aliasAddOk = true) ∧
              env.addHostsOk = true ∧ ctx.cancelled = false ∧
              env.createSaveOk = true ∧ env.upgradeOk = true := by
            refine ⟨?_, h2, hcc, hcs, h4⟩
            intro hna
            rw [hna] at h1
            simpa using h1
          cases hRP : resolvePod env req with
          | none =>
            obtain ⟨s, hs⟩ := createWithIP_waiting env ctx req ip pf w hip hpf
              hrm hsv hacq h1 h2 hS h4 hRP
            rw [hs]
            refine ⟨?_, ?_, by simp⟩
            · intro e s' heq
              simp at heq
            · intro s' heq
              refine ⟨hflags.1, rfl, hcc, hcs, rfl, ?_⟩
              intro pod hpod
              simp at hpod
          | some pod =>
            cases h6 : env.tunnelOk with
            | false =>
              rw [createWithIP_tunnel_fail env ctx req ip pf w pod h1 h2 hS h4 hRP h6]
              refine ⟨cleanup_restores env _ _ _ w ip req.Hostnames hip hpf
                hrm hsv hacq hal hdns (aliasStep_ippool env ip w) hA1step hA2step
                (Or.inr hentAdd) (aliasStep_portForwards env ip w)
                (aliasStep_lastTouchTime env ip w) (aliasStep_closedTunnels env ip w)
                (aliasStep_nextTunnel env ip w), ?_, ?_⟩
              · intro s' heq
                rw [failCleanup_eq] at heq
                simp at heq
              · rw [failCleanup_eq]
                simp
            | true =>
              obtain ⟨s, hs⟩ := createWithIP_tunnel_ok env ctx req ip pf w pod
                h1 h2 hS h4 hRP h6
              rw [hs]
              refine ⟨?_, ?_, by simp⟩
              · intro e s' heq
                simp at heq
              · intro s' heq
                exact ⟨hflags.1, rfl, hcc, hcs, rfl, fun p hp => rfl⟩

/-- The stop procedure is the identity on a record with no IP and no
tunnel handle. -/
theorem stopConn_inert (env : Env) (conn : PortForwardConnection) (s : WorkerState)
    (h1 : conn.IP = none) (h2 : conn.pf = none) :
    stopPortForwardConn env conn s = (conn, s, []) := by
  simp [stopPortForwardConn, h1, h2]

/-- On a fresh key without `Recreate`, a create that cannot acquire an IP
fails with the allocation error, and its deferred cleanup (on a record
holding nothing) leaves the touched state untouched otherwise. -/
theorem CreatePortForward_acquire_none (env : Env) (ctx : Ctx) (w : WorkerState)
    (req : CreatePortForwardRequest)
    (hnone : List.lookup req.Service.Key w.portForwards = none)
    (hrec : req.Recreate = false)
    (hacq : w.ippool.AcquireIP = none) :
    CreatePortForward env ctx w req = .done (some "failed to allocate IP") (touch w) := by
  simp [CreatePortForward, createAcquireAndGo, hnone, hrec, hacq, touch,
    failCleanup_eq, stopConn_inert]

/-- On a fresh key without `Recreate`, a create that acquires `ip`
continues with the post-acquisition tail on the updated pool. -/
theorem CreatePortForward_acquire_some (env : Env) (ctx : Ctx) (w : WorkerState)
    (req : CreatePortForwardRequest) (ip : Nat) (pool : Ipam)
    (hnone : List.lookup req.Service.Key w.portForwards = none)
    (hrec : req.Recreate = false)
    (hacq : w.ippool.AcquireIP = some (ip, pool)) :
    CreatePortForward env ctx w req =
      createWithIP env ctx req ip
        { Service := req.Service, Pod := ⟨"", ""⟩, IP := some ip, Ports := req.Ports,
          Hostnames := [], Status := .Running, StatusReason := "", pf := none }
        { ippool := pool, dns := w.dns, aliases := w.aliases,
          portForwards := w.portForwards, lastTouchTime := w.lastTouchTime + 1,
          closedTunnels := w.closedTunnels, nextTunnel := w.nextTunnel } := by
  simp [CreatePortForward, createAcquireAndGo, hnone, hrec, hacq, touch]

/-! Claim C3. -/

/-- Claim C3: for a create on a fresh key (no recreate) in a worker whose
pool, aliases and hosts file hold no stale trace of the address about to
be handed out, (a) when the pool is empty the request fails with the
allocation error and nothing but the activity timestamp changes; (b) any
error return leaves the pool's acquired set, the aliases, the hosts
section (persisted on disk) and the active map exactly as before the
request — the acquired IP was released and every partial resource undone
by the stop procedure; (c) a success return means the alias add, hosts
add, hosts save and connection upgrade all succeeded; and (d) the
handler cannot fault. -/
theorem C3_create_failure_releases (env : Env) (ctx : Ctx) (w : WorkerState)
    (req : CreatePortForwardRequest)
    (hnone : List.lookup req.Service.Key w.portForwards = none)
    (hrec : req.Recreate = false)
    (hrm : env.aliasRemoveOk = true) (hsv : env.stopSaveOk = true)
    (hfresh : ∀ ip pool, w.ippool.AcquireIP = some (ip, pool) →
      ip ∉ w.aliases ∧ List.lookup ip w.dns.entries = none) :
    (w.ippool.AcquireIP = none →
      CreatePortForward env ctx w req = .done (some "failed to allocate IP") (touch w)) ∧
    (∀ e s', CreatePortForward env ctx w req = .done (some e) s' →
      s'.ippool.acquired = w.ippool.acquired ∧
      s'.ippool.base = w.ippool.base ∧
      s'.ippool.maskBits = w.ippool.maskBits ∧
      s'.aliases = w.aliases ∧
      s'.dns.entries = w.dns.entries ∧
      s'.portForwards = w.portForwards ∧
      s'.closedTunnels = w.closedTunnels ∧
      s'.nextTunnel = w.nextTunnel) ∧
    (∀ s', CreatePortForward env ctx w req = .done none s' →
      (env.needsAlias = true → env.aliasAddOk = true) ∧ env.addHostsOk = true ∧
      ctx.cancelled = false ∧ env.createSaveOk = true ∧ env.upgradeOk = true) ∧
    CreatePortForward env ctx w req ≠ .fault := by
  cases hacq : w.ippool.AcquireIP with
  | none =>
    have hred := CreatePortForward_acquire_none env ctx w req hnone hrec hacq
    refine ⟨fun _ => hred, ?_, ?_, ?_⟩
    · intro e s' heq
      rw [hred] at heq
      injection heq with he hs
      subst hs
      simp [touch]
    · intro s' heq
      rw [hred] at heq
      simp at heq
    · rw [hred]
      simp
  | some p =>
    obtain ⟨ip, pool⟩ := p
    obtain ⟨hnotin, hpool⟩ := AcquireIP_spec w.ippool ip pool hacq
    obtain ⟨hfal, hfdns⟩ := hfresh ip pool hacq
    have hred := CreatePortForward_acquire_some env ctx w req ip pool hnone hrec hacq
    have hmem : ip ∈ pool.acquired := by
      rw [hpool]
      exact List.mem_cons_self ip _
    have hspec := createWithIP_spec env ctx req ip
      ⟨req.Service, ⟨"", ""⟩, some ip, req.Ports, [], .Running, "", none⟩
      ⟨pool, w.dns, w.aliases, w.portForwards, w.lastTouchTime + 1,
        w.closedTunnels, w.nextTunnel⟩
      rfl rfl hrm hsv hmem hfal hfdns
    refine ⟨?_, ?_, ?_, ?_⟩
    · intro hn
      simp at hn
    · intro e s' heq
      rw [hred] at heq
      obtain ⟨ha, hb, hc, hd, he2, -, hg, -, hi, hj⟩ := hspec.1 e s' heq
      rw [hpool] at ha hb hc
      refine ⟨?_, hb, hc, hd, he2, hg, hi, hj⟩
      simpa using ha
    · intro s' heq
      rw [hred] at heq
      obtain ⟨q1, q2, q3, q4, q5, -⟩ := hspec.2.1 s' heq
      exact ⟨q1, q2, q3, q4, q5⟩
    · rw [hred]
      exact hspec.2.2

/-- An environment in which the SPDY upgrade fails. -/
def fixEnvUpgradeFail : Env := { fixEnv with upgradeOk := false }

/-- The /29 pool after its first-fit acquisition handed out .1. -/
def fixPoolAfter : Ipam :=
  { base := 2130706432, maskBits := 29, acquired := [2130706433] }

/-- Claim C3 witness: with the upgrade failing on a fresh worker, the
create errors out without faulting, and the theorem's hypotheses hold at
this concrete input. -/
theorem C3_create_failure_releases_witness :
    CreatePortForward fixEnvUpgradeFail backgroundCtx fixWorker fixCreateReq ≠
      CreateResult.fault :=
  (C3_create_failure_releases fixEnvUpgradeFail backgroundCtx fixWorker fixCreateReq
    (by decide) (by decide) rfl rfl
    (by
      intro ip pool h
      have h0 : fixWorker.ippool.AcquireIP = some (2130706433, fixPoolAfter) := by decide
      rw [h0] at h
      injection h with h1
      cases h1
      exact ⟨by decide, by decide⟩)).2.2.2

/-! Claim C4. -/

/-- Replacing the line for a present key makes it the lookup result. -/
theorem lookup_map_replace (m : List (String × PortForwardConnection)) (k : String)
    (v v0 : PortForwardConnection) (h : List.lookup k m = some v0) :
    List.lookup k (m.map (fun e => if e.1 == k then (k, v) else e)) = some v := by
  induction m with
  | nil => cases h
  | cons e t ih =>
    obtain ⟨a, b⟩ := e
    by_cases hbe : (a == k) = true
    · rw [List.map_cons, if_pos hbe]
      simp [List.lookup]
    · rw [List.map_cons, if_neg hbe]
      have hbe' : (a == k) = false := by rwa [Bool.not_eq_true] at hbe
      have hkb : (k == a) = false := by
        simp only [beq_eq_false_iff_ne] at hbe' ⊢
        exact fun hh => hbe' hh.symm
      simp only [List.lookup, hkb] at h ⊢
      exact ih h

/-- Appending a line for an absent key makes it the lookup result. -/
theorem lookup_append_fresh (m : List (String × PortForwardConnection)) (k : String)
    (v : PortForwardConnection) (h : List.lookup k m = none) :
    List.lookup k (m ++ [(k, v)]) = some v := by
  induction m with
  | nil => simp [List.lookup]
  | cons e t ih =>
    obtain ⟨a, b⟩ := e
    cases hkb : (k == a) with
    | true => simp [List.lookup, hkb] at h
    | false =>
      simp only [List.lookup, hkb] at h
      simp only [List.cons_append, List.lookup, hkb]
      exact ih h

/-- Registration in the active map is visible to a subsequent lookup. -/
theorem lookup_mapInsert (m : List (String × PortForwardConnection)) (k : String)
    (v : PortForwardConnection) :
    List.lookup k (mapInsert m k v) = some v := by
  unfold mapInsert
  cases hl : List.lookup k m with
  | none =>
    rw [if_neg (by simp : ¬((none : Option PortForwardConnection).isSome = true))]
    exact lookup_append_fresh m k v hl
  | some v0 =>
    rw [if_pos (show (some v0).isSome = true from rfl)]
    exact lookup_map_replace m k v v0 hl

/-- The record as the no-endpoint branch demotes it, before its stop. -/
def waitingRecord (req : CreatePortForwardRequest) (pf : PortForwardConnection) :
    PortForwardConnection :=
  { pf with Hostnames := req.Hostnames, Status := .Waiting,
            StatusReason := "No endpoints were found." }

/-- The worker state at the endpoint-resolution point of a create: alias
bound, hosts line added and saved. -/
def savedState (env : Env) (ip : Nat) (names : List String) (w : WorkerState) :
    WorkerState :=
  let d := (aliasStep env ip w).dns.AddHosts ip names
  { aliasStep env ip w with dns := { d with disk := d.entries } }

/-- The no-endpoint branch, when the stop on the demoted record reports
no error: the demoted record is stopped and registered, and the request
succeeds. -/
theorem createWithIP_waiting_eq (env : Env) (ctx : Ctx) (req : CreatePortForwardRequest)
    (ip : Nat) (pf : PortForwardConnection) (w : WorkerState)
    (h1 : (env.needsAlias && !env.aliasAddOk) = false) (h2 : env.addHostsOk = true)
    (hS : (ctx.cancelled || !env.createSaveOk) = false) (h4 : env.upgradeOk = true)
    (hRP : resolvePod env req = none)
    (herrs : (stopPortForwardConn env (waitingRecord req pf)
      (savedState env ip req.Hostnames w)).2.2 = []) :
    createWithIP env ctx req ip pf w =
      .done none
        { (stopPortForwardConn env (waitingRecord req pf)
            (savedState env ip req.Hostnames w)).2.1 with
          portForwards :=
            mapInsert (stopPortForwardConn env (waitingRecord req pf)
                (savedState env ip req.Hostnames w)).2.1.portForwards
              req.Service.Key
              (stopPortForwardConn env (waitingRecord req pf)
                (savedState env ip req.Hostnames w)).1 } := by
  simp only [waitingRecord, savedState] at herrs
  simp [createWithIP, h1, h2, HostsFile.Save, hS, h4, hRP, waitingRecord, savedState,
    herrs]

/-- The no-endpoint branch, when the stop on the demoted record reports
an error: that error is returned (and the deferred cleanup runs again on
the already-emptied record). -/
theorem createWithIP_waiting_fail_eq (env : Env) (ctx : Ctx)
    (req : CreatePortForwardRequest) (ip : Nat) (pf : PortForwardConnection)
    (w : WorkerState)
    (h1 : (env.needsAlias && !env.aliasAddOk) = false) (h2 : env.addHostsOk = true)
    (hS : (ctx.cancelled || !env.createSaveOk) = false) (h4 : env.upgradeOk = true)
    (hRP : resolvePod env req = none)
    (herrs : (stopPortForwardConn env (waitingRecord req pf)
      (savedState env ip req.Hostnames w)).2.2 ≠ []) :
    createWithIP env ctx req ip pf w =
      failCleanup env
        (formatErrs (stopPortForwardConn env (waitingRecord req pf)
          (savedState env ip req.Hostnames w)).2.2)
        (stopPortForwardConn env (waitingRecord req pf)
          (savedState env ip req.Hostnames w)).1
        (stopPortForwardConn env (waitingRecord req pf)
          (savedState env ip req.Hostnames w)).2.1 := by
  simp only [waitingRecord, savedState] at herrs
  simp [createWithIP, h1, h2, HostsFile.Save, hS, h4, hRP, waitingRecord, savedState,
    herrs]

/-- Claim C4, corrected: on a fresh key, with every step up to endpoint
resolution succeeding and the resolver finding no pod, the record is
demoted to Waiting with reason "No endpoints were found." and stopped.
When the stop reports no error (alias removal and the background hosts
save succeed), the Waiting record — holding no IP and no tunnel — is
registered under the service key, the acquired IP is back in the pool,
the hosts section is restored, and the request succeeds.  But when the
stop itself fails (for instance the background hosts save fails), the
request FAILS with the stop error and the Waiting record is NOT
registered — contrary to the claim's unconditional "do not fail the
request". -/
theorem C4_no_endpoint_demotes_to_waiting (env : Env) (ctx : Ctx) (w : WorkerState)
    (req : CreatePortForwardRequest) (ip : Nat) (pool : Ipam)
    (hnone : List.lookup req.Service.Key w.portForwards = none)
    (hrec : req.Recreate = false)
    (hres : resolvePod env req = none)
    (h1 : (env.needsAlias && !env.aliasAddOk) = false)
    (h2 : env.addHostsOk = true)
    (hS : (ctx.cancelled || !env.createSaveOk) = false)
    (h4 : env.upgradeOk = true)
    (hacq : w.ippool.AcquireIP = some (ip, pool))
    (hfdns : List.lookup ip w.dns.entries = none) :
    (env.aliasRemoveOk = true → env.stopSaveOk = true →
      ∃ s', CreatePortForward env ctx w req = .done none s' ∧
        List.lookup req.Service.Key s'.portForwards =
          some { Service := req.Service, Pod := ⟨"", ""⟩, IP := none,
                 Ports := req.Ports, Hostnames := req.Hostnames, Status := .Waiting,
                 StatusReason := "No endpoints were found.", pf := none } ∧
        s'.ippool.acquired = w.ippool.acquired ∧
        s'.dns.entries = w.dns.entries) ∧
    (env.stopSaveOk = false →
      ∃ e s', CreatePortForward env ctx w req = .done (some e) s' ∧
        List.lookup req.Service.Key s'.portForwards = none) := by
  obtain ⟨hnotin, hpool⟩ := AcquireIP_spec w.ippool ip pool hacq
  have hred := CreatePortForward_acquire_some env ctx w req ip pool hnone hrec hacq
  have hmem : ip ∈ pool.acquired := by
    rw [hpool]
    exact List.mem_cons_self ip _
  constructor
  · intro hrm hsv
    have hmemS : ip ∈ (savedState env ip req.Hostnames
        (⟨pool, w.dns, w.aliases, w.portForwards, w.lastTouchTime + 1,
          w.closedTunnels, w.nextTunnel⟩ : WorkerState)).ippool.acquired := by
      simpa [savedState, aliasStep_ippool] using hmem
    have heq := createWithIP_waiting_eq env ctx req ip
      ⟨req.Service, ⟨"", ""⟩, some ip, req.Ports, [], .Running, "", none⟩
      ⟨pool, w.dns, w.aliases, w.portForwards, w.lastTouchTime + 1,
        w.closedTunnels, w.nextTunnel⟩
      h1 h2 hS h4 hres
      (stopConn_st_errs_nil env _ _ ip rfl hrm hsv hmemS)
    refine ⟨_, hred.trans heq, ?_, ?_, ?_⟩
    · have hlk := lookup_mapInsert
        (stopPortForwardConn env
          (waitingRecord req ⟨req.Service, ⟨"", ""⟩, some ip, req.Ports, [], .Running, "", none⟩)
          (savedState env ip req.Hostnames
            ⟨pool, w.dns, w.aliases, w.portForwards, w.lastTouchTime + 1,
              w.closedTunnels, w.nextTunnel⟩)).2.1.portForwards
        req.Service.Key
        (stopPortForwardConn env
          (waitingRecord req ⟨req.Service, ⟨"", ""⟩, some ip, req.Ports, [], .Running, "", none⟩)
          (savedState env ip req.Hostnames
            ⟨pool, w.dns, w.aliases, w.portForwards, w.lastTouchTime + 1,
              w.closedTunnels, w.nextTunnel⟩)).1
      rw [show (stopPortForwardConn env
          (waitingRecord req ⟨req.Service, ⟨"", ""⟩, some ip, req.Ports, [], .Running, "", none⟩)
          (savedState env ip req.Hostnames
            ⟨pool, w.dns, w.aliases, w.portForwards, w.lastTouchTime + 1,
              w.closedTunnels, w.nextTunnel⟩)).1 =
        { Service := req.Service, Pod := ⟨"", ""⟩, IP := none, Ports := req.Ports,
          Hostnames := req.Hostnames, Status := .Waiting,
          StatusReason := "No endpoints were found.", pf := none } from
        stopConn_st_conn env _ _ ip rfl] at hlk
      exact hlk
    · rw [stopConn_st_acquired env _ _ ip rfl,
        show (savedState env ip req.Hostnames
          ⟨pool, w.dns, w.aliases, w.portForwards, w.lastTouchTime + 1,
            w.closedTunnels, w.nextTunnel⟩).ippool = pool from
          by simp [savedState, aliasStep_ippool], hpool]
      simp
    · rw [stopConn_st_entries env _ _ ip rfl,
        show (savedState env ip req.Hostnames
          ⟨pool, w.dns, w.aliases, w.portForwards, w.lastTouchTime + 1,
            w.closedTunnels, w.nextTunnel⟩).dns.entries =
          w.dns.entries ++ [(ip, req.Hostnames)] from
          by simp [savedState, aliasStep_dns, AddHosts_fresh w.dns ip req.Hostnames hfdns]]
      exact append_single_filter w.dns.entries ip req.Hostnames hfdns
  · intro hsvF
    have herrs : (stopPortForwardConn env
        (waitingRecord req ⟨req.Service, ⟨"", ""⟩, some ip, req.Ports, [], .Running, "", none⟩)
        (savedState env ip req.Hostnames
          ⟨pool, w.dns, w.aliases, w.portForwards, w.lastTouchTime + 1,
            w.closedTunnels, w.nextTunnel⟩)).2.2 ≠ [] := by
      intro hnil
      obtain ⟨-, -, hbad⟩ :=
        ((stopConn_of_IP_some env _ _ ip rfl).2.2.2.2.2.2.2.2.2.2).mp hnil
      rw [hsvF] at hbad
      exact Bool.false_ne_true hbad
    have heqF := createWithIP_waiting_fail_eq env ctx req ip
      ⟨req.Service, ⟨"", ""⟩, some ip, req.Ports, [], .Running, "", none⟩
      ⟨pool, w.dns, w.aliases, w.portForwards, w.lastTouchTime + 1,
        w.closedTunnels, w.nextTunnel⟩
      h1 h2 hS h4 hres herrs
    refine ⟨_, _, (hred.trans heqF).trans (failCleanup_eq env _ _ _), ?_⟩
    obtain ⟨-, -, -, -, h5, -, -, -⟩ :=
      stopConn_of_IP_none env _ _ (stopConn_resultIP env
        (waitingRecord req ⟨req.Service, ⟨"", ""⟩, some ip, req.Ports, [], .Running, "", none⟩)
        (savedState env ip req.Hostnames
          ⟨pool, w.dns, w.aliases, w.portForwards, w.lastTouchTime + 1,
            w.closedTunnels, w.nextTunnel⟩))
    rw [h5, stopConn_st_portForwards env _ _ ip rfl,
      show (savedState env ip req.Hostnames
        ⟨pool, w.dns, w.aliases, w.portForwards, w.lastTouchTime + 1,
          w.closedTunnels, w.nextTunnel⟩).portForwards = w.portForwards from
        by simp [savedState, aliasStep_portForwards]]
    exact hnone

/-- Discriminator: did the handler return an error? -/
def CreateResult.hasError : CreateResult → Bool
  | .done (some _) _ => true
  | _ => false

/-- Discriminator: does the resulting active map hold the key? -/
def CreateResult.registersKey : CreateResult → String → Bool
  | .done _ s, k => (List.lookup k s.portForwards).isSome
  | .fault, _ => false

/-- A Linux environment in which the Endpoints query finds an object
with no subsets (so the resolver finds no pod) and in which the
background hosts save of the stop procedure fails. -/
def fixEnvC4 : Env := { fixEnv with stopSaveOk := false, epResult := some ⟨[]⟩ }

/-- Claim C4 counterexample: with no endpoint found and the stop's
hosts save failing, CreatePortForward returns an error and registers no
Waiting record — the claim's "the request does not fail ... with
CreatePortForward returning success" is false on the code. -/
theorem C4_counterexample :
    (CreatePortForward fixEnvC4 backgroundCtx fixWorker fixCreateReq).hasError = true ∧
    (CreatePortForward fixEnvC4 backgroundCtx fixWorker fixCreateReq).registersKey
      "ns/a" = false := by
  decide

/-- A Linux environment in which the Endpoints query finds an object
with no subsets and every platform operation succeeds. -/
def fixEnvWaiting : Env := { fixEnv with epResult := some ⟨[]⟩ }

/-- Claim C4 witness: in the all-steps-succeed environment the demoted
Waiting record is registered. -/
theorem C4_no_endpoint_demotes_to_waiting_witness :
    (CreatePortForward fixEnvWaiting backgroundCtx fixWorker fixCreateReq).registersKey
      "ns/a" = true := by
  obtain ⟨s', hs, hl, -, -⟩ :=
    (C4_no_endpoint_demotes_to_waiting fixEnvWaiting backgroundCtx fixWorker
      fixCreateReq 2130706433 fixPoolAfter (by decide) (by decide) (by decide)
      (by decide) (by decide) (by decide) (by decide) (by decide)
      (by decide)).1 rfl rfl
  have hkey : fixCreateReq.Service.Key = "ns/a" := rfl
  rw [hkey] at hl
  simp [CreateResult.registersKey, hs, hl]

/-! Claim C8. -/

/-- The successful-tunnel site of `createWithIP`, with the exact result
state: tunnel handle allocated, record registered. -/
theorem createWithIP_tunnel_ok_eq (env : Env) (ctx : Ctx)
    (req : CreatePortForwardRequest) (ip : Nat) (pf : PortForwardConnection)
    (w : WorkerState) (pod : PodInfo)
    (h1 : (env.needsAlias && !env.aliasAddOk) = false) (h2 : env.addHostsOk = true)
    (hS : (ctx.cancelled || !env.createSaveOk) = false) (h4 : env.upgradeOk = true)
    (hRP : resolvePod env req = some pod) (h6 : env.tunnelOk = true) :
    createWithIP env ctx req ip pf w =
      .done none
        { savedState env ip req.Hostnames w with
            portForwards :=
              mapInsert (savedState env ip req.Hostnames w).portForwards
                req.Service.Key
                { pf with Hostnames := req.Hostnames, Pod := pod,
                          pf := some (savedState env ip req.Hostnames w).nextTunnel }
            nextTunnel := (savedState env ip req.Hostnames w).nextTunnel + 1 } := by
  simp [createWithIP, h1, h2, HostsFile.Save, hS, h4, hRP, h6, savedState]

/-- The invariant behind claim C8: the canonical loopback address is
booked in the pool and no active record claims it. -/
def NoDefaultIP (w : WorkerState) : Prop :=
  defaultIP ∈ w.ippool.acquired ∧ ∀ e ∈ w.portForwards, e.2.IP ≠ some defaultIP

/-- A successful lookup points at an entry of the association list. -/
theorem lookup_mem (m : List (String × PortForwardConnection)) (k : String)
    (v : PortForwardConnection) (h : List.lookup k m = some v) : (k, v) ∈ m := by
  induction m with
  | nil => cases h
  | cons e t ih =>
    obtain ⟨a, b⟩ := e
    cases hkb : (k == a) with
    | true =>
      simp only [List.lookup, hkb] at h
      injection h with hv
      subst hv
      have hka : k = a := by simpa using hkb
      subst hka
      exact List.mem_cons_self _ _
    | false =>
      simp only [List.lookup, hkb] at h
      exact List.mem_cons_of_mem _ (ih h)

/-- Entries of the map after an insert: the inserted pair or an old one. -/
theorem mem_mapInsert (m : List (String × PortForwardConnection)) (k : String)
    (v : PortForwardConnection) (e : String × PortForwardConnection)
    (h : e ∈ mapInsert m k v) :
    e = (k, v) ∨ e ∈ m := by
  unfold mapInsert at h
  by_cases hl : (List.lookup k m).isSome = true
  · rw [if_pos hl] at h
    obtain ⟨a, ha, hfa⟩ := List.mem_map.mp h
    by_cases hak : (a.1 == k) = true
    · rw [if_pos hak] at hfa
      left
      exact hfa.symm
    · rw [if_neg hak] at hfa
      right
      exact hfa ▸ ha
  · rw [if_neg hl] at h
    rcases List.mem_append.mp h with h1 | h2
    · right
      exact h1
    · left
      simpa using h2

/-- The stop procedure never touches the active map. -/
theorem stopConn_portForwards_any (env : Env) (conn : PortForwardConnection)
    (s : WorkerState) :
    (stopPortForwardConn env conn s).2.1.portForwards = s.portForwards := by
  cases hip : conn.IP with
  | none => exact (stopConn_of_IP_none env conn s hip).2.2.2.2.1
  | some ip => exact stopConn_st_portForwards env conn s ip hip

/-- The stop procedure only ever releases the stopped record's own IP,
so an address the record does not hold stays acquired. -/
theorem stopConn_keeps_default (env : Env) (conn : PortForwardConnection)
    (s : WorkerState) (hconn : conn.IP ≠ some defaultIP)
    (hd : defaultIP ∈ s.ippool.acquired) :
    defaultIP ∈ (stopPortForwardConn env conn s).2.1.ippool.acquired := by
  cases hip : conn.IP with
  | none => rw [(stopConn_of_IP_none env conn s hip).2.1]; exact hd
  | some ip =>
    have hne : defaultIP ≠ ip := by
      intro hh
      exact hconn (by rw [hip, hh])
    rw [stopConn_st_acquired env conn s ip hip]
    split
    · exact (List.mem_erase_of_ne hne).mpr hd
    · exact hd

/-- Updating a record's status never introduces the default IP. -/
theorem setStatus_keeps (w : WorkerState) (si : ServiceInfo)
    (st : PortForwardStatus) (rs : String) (h : NoDefaultIP w) :
    NoDefaultIP (setPortForwardConnectionStatus w si st rs) := by
  unfold setPortForwardConnectionStatus
  cases hlk : List.lookup si.Key w.portForwards with
  | none => exact h
  | some pf =>
    refine ⟨h.1, ?_⟩
    intro e he
    rcases mem_mapInsert _ _ _ e he with rfl | hmem
    · simpa using h.2 (si.Key, pf) (lookup_mem _ _ _ hlk)
    · exact h.2 e hmem

/-- Whatever happens after the IP acquisition — any failure site, the
successful tunnel, or the Waiting demotion — the default loopback
address stays acquired and no registered record claims it. -/
theorem createWithIP_keeps (env : Env) (ctx : Ctx) (req : CreatePortForwardRequest)
    (ip : Nat) (pf : PortForwardConnection) (w : WorkerState)
    (hd : defaultIP ∈ w.ippool.acquired)
    (hmap : ∀ e ∈ w.portForwards, e.2.IP ≠ some defaultIP)
    (hipne : ip ≠ defaultIP)
    (hpfIP : pf.IP = some ip) :
    ∀ e s', createWithIP env ctx req ip pf w = .done e s' → NoDefaultIP s' := by
  intro e s' heq
  have hpfne : pf.IP ≠ some defaultIP := by
    rw [hpfIP]
    simp [hipne]
  have hdA : defaultIP ∈ (aliasStep env ip w).ippool.acquired := by
    rw [aliasStep_ippool]
    exact hd
  have hdS : defaultIP ∈ (savedState env ip req.Hostnames w).ippool.acquired := by
    simpa [savedState, aliasStep_ippool] using hd
  have hmapA : ∀ en ∈ (aliasStep env ip w).portForwards, en.2.IP ≠ some defaultIP := by
    rw [aliasStep_portForwards]
    exact hmap
  have hmapS : ∀ en ∈ (savedState env ip req.Hostnames w).portForwards,
      en.2.IP ≠ some defaultIP := by
    intro en hen
    have hpfs : (savedState env ip req.Hostnames w).portForwards = w.portForwards := by
      simp [savedState, aliasStep_portForwards]
    rw [hpfs] at hen
    exact hmap en hen
  cases h1 : env.needsAlias && !env.aliasAddOk with
  | true =>
    rw [createWithIP_alias_fail env ctx req ip pf w h1, failCleanup_eq] at heq
    injection heq with he hs
    subst hs
    refine ⟨stopConn_keeps_default env pf w hpfne hd, ?_⟩
    intro en hen
    rw [stopConn_portForwards_any] at hen
    exact hmap en hen
  | false =>
    cases h2 : env.addHostsOk with
    | false =>
      rw [createWithIP_addHosts_fail env ctx req ip pf w h1 h2, failCleanup_eq] at heq
      injection heq with he hs
      subst hs
      refine ⟨stopConn_keeps_default env _ _ hpfne hdA, ?_⟩
      intro en hen
      rw [stopConn_portForwards_any] at hen
      exact hmapA en hen
    | true =>
      cases hS : ctx.cancelled || !env.createSaveOk with
      | true =>
        rw [createWithIP_save_fail env ctx req ip pf w h1 h2 hS, failCleanup_eq] at heq
        injection heq with he hs
        subst hs
        refine ⟨stopConn_keeps_default env _ _ hpfne hdA, ?_⟩
        intro en hen
        rw [stopConn_portForwards_any] at hen
        exact hmapA en hen
      | false =>
        cases h4 : env.upgradeOk with
        | false =>
          rw [createWithIP_upgrade_fail env ctx req ip pf w h1 h2 hS h4,
            failCleanup_eq] at heq
          injection heq with he hs
          subst hs
          refine ⟨stopConn_keeps_default env _ _ hpfne hdA, ?_⟩
          intro en hen
          rw [stopConn_portForwards_any] at hen
          exact hmapA en hen
        | true =>
          cases hRP : resolvePod env req with
          | some pod =>
            cases h6 : env.tunnelOk with
            | false =>
              rw [createWithIP_tunnel_fail env ctx req ip pf w pod h1 h2 hS h4 hRP h6,
                failCleanup_eq] at heq
              injection heq with he hs
              subst hs
              refine ⟨stopConn_keeps_default env _ _ hpfne hdA, ?_⟩
              intro en hen
              rw [stopConn_portForwards_any] at hen
              exact hmapA en hen
            | true =>
              rw [createWithIP_tunnel_ok_eq env ctx req ip pf w pod h1 h2 hS h4 hRP h6]
                at heq
              injection heq with he hs
              subst hs
              refine ⟨hdS, ?_⟩
              intro en hen
              rcases mem_mapInsert _ _ _ en hen with rfl | hmem
              · simpa using hpfne
              · exact hmapS en hmem
          | none =>
            rcases Decidable.em ((stopPortForwardConn env (waitingRecord req pf)
                (savedState env ip req.Hostnames w)).2.2 = []) with herrs | herrs
            · rw [createWithIP_waiting_eq env ctx req ip pf w h1 h2 hS h4 hRP herrs]
                at heq
              injection heq with he hs
              subst hs
              have hwne : (waitingRecord req pf).IP ≠ some defaultIP := by
                simpa [waitingRecord] using hpfne
              refine ⟨stopConn_keeps_default env _ _ hwne hdS, ?_⟩
              intro en hen
              rcases mem_mapInsert _ _ _ en hen with rfl | hmem
              · simp [stopConn_resultIP]
              · rw [stopConn_portForwards_any] at hmem
                exact hmapS en hmem
            · rw [createWithIP_waiting_fail_eq env ctx req ip pf w h1 h2 hS h4 hRP herrs,
                failCleanup_eq] at heq
              injection heq with he hs
              subst hs
              have hwne : (waitingRecord req pf).IP ≠ some defaultIP := by
                simpa [waitingRecord] using hpfne
              have hip2 := stopConn_resultIP env (waitingRecord req pf)
                (savedState env ip req.Hostnames w)
              obtain ⟨-, hP2, -, -, hF2, -, -, -⟩ :=
                stopConn_of_IP_none env _ _ hip2
              refine ⟨?_, ?_⟩
              · rw [hP2]
                exact stopConn_keeps_default env _ _ hwne hdS
              · intro en hen
                rw [hF2, stopConn_portForwards_any] at hen
                exact hmapS en hen

/-- The acquisition stage preserves the invariant: a pool that has the
default address booked can only hand out a different address. -/
theorem createAcquireAndGo_keeps (env : Env) (ctx : Ctx)
    (req : CreatePortForwardRequest) (w : WorkerState) (h : NoDefaultIP w) :
    ∀ e s', createAcquireAndGo env ctx req w = .done e s' → NoDefaultIP s' := by
  intro e s' heq
  cases hacq : w.ippool.AcquireIP with
  | none =>
    rw [show createAcquireAndGo env ctx req w =
        .done (some "failed to allocate IP") w from by
      simp [createAcquireAndGo, hacq, failCleanup_eq, stopConn_inert]] at heq
    injection heq with he hs
    subst hs
    exact h
  | some p =>
    obtain ⟨ip, pool⟩ := p
    obtain ⟨hnotin, hpool⟩ := AcquireIP_spec w.ippool ip pool hacq
    have hipne : ip ≠ defaultIP := fun hh => hnotin (hh ▸ h.1)
    rw [show createAcquireAndGo env ctx req w =
        createWithIP env ctx req ip
          ⟨req.Service, ⟨"", ""⟩, some ip, req.Ports, [], .Running, "", none⟩
          ⟨pool, w.dns, w.aliases, w.portForwards, w.lastTouchTime,
            w.closedTunnels, w.nextTunnel⟩ from by
      simp [createAcquireAndGo, hacq]] at heq
    refine createWithIP_keeps env ctx req ip _ _ ?_ ?_ hipne rfl e s' heq
    · rw [hpool]
      exact List.mem_cons_of_mem _ h.1
    · exact h.2

/-- `CreatePortForward` preserves the invariant on every non-faulting
outcome, including recreates. -/
theorem CreatePortForward_keeps (env : Env) (ctx : Ctx) (w : WorkerState)
    (req : CreatePortForwardRequest) (h : NoDefaultIP w) :
    ∀ e s', CreatePortForward env ctx w req = .done e s' → NoDefaultIP s' := by
  intro e s' heq
  by_cases hguard :
      ((List.lookup req.Service.Key w.portForwards).isSome && !req.Recreate) = true
  · rw [show CreatePortForward env ctx w req =
        .done (some "already have a port-forward for this service") w from by
      simp [CreatePortForward, hguard]] at heq
    injection heq with he hs
    subst hs
    exact h
  · have hguard' :
        ((List.lookup req.Service.Key w.portForwards).isSome && !req.Recreate) = false := by
      rwa [Bool.not_eq_true] at hguard
    cases hrec : req.Recreate with
    | false =>
      have hlook : (List.lookup req.Service.Key w.portForwards).isSome = false := by
        rw [hrec] at hguard'
        simpa using hguard'
      rw [show CreatePortForward env ctx w req =
          createAcquireAndGo env ctx req (touch w) from by
        simp [CreatePortForward, hlook, hrec]] at heq
      exact createAcquireAndGo_keeps env ctx req (touch w) ⟨h.1, h.2⟩ e s' heq
    | true =>
      have hkeep2 : NoDefaultIP (setPortForwardConnectionStatus (touch w)
          req.Service .Recreating req.RecreateReason) :=
        setStatus_keeps (touch w) req.Service .Recreating req.RecreateReason ⟨h.1, h.2⟩
      cases hlk : List.lookup req.Service.Key
          (setPortForwardConnectionStatus (touch w) req.Service .Recreating
            req.RecreateReason).portForwards with
      | none =>
        rw [show CreatePortForward env ctx w req = .fault from by
          simp [CreatePortForward, hguard', hrec, hlk, stopPortForward]] at heq
        cases heq
      | some c =>
        have hcip : c.IP ≠ some defaultIP :=
          hkeep2.2 (req.Service.Key, c) (lookup_mem _ _ _ hlk)
        rw [show CreatePortForward env ctx w req =
            createAcquireAndGo env ctx req
              { (stopPortForwardConn env c
                  (setPortForwardConnectionStatus (touch w) req.Service .Recreating
                    req.RecreateReason)).2.1 with
                portForwards :=
                  mapInsert (stopPortForwardConn env c
                      (setPortForwardConnectionStatus (touch w) req.Service .Recreating
                        req.RecreateReason)).2.1.portForwards
                    req.Service.Key
                    (stopPortForwardConn env c
                      (setPortForwardConnectionStatus (touch w) req.Service .Recreating
                        req.RecreateReason)).1 } from by
          simp [CreatePortForward, hguard', hrec, hlk, stopPortForward]] at heq
        refine createAcquireAndGo_keeps env ctx req _ ⟨?_, ?_⟩ e s' heq
        · exact stopConn_keeps_default env c _ hcip hkeep2.1
        · intro en hen
          rcases mem_mapInsert _ _ _ en hen with rfl | hmem
          · simp [stopConn_resultIP]
          · rw [stopConn_portForwards_any] at hmem
            exact hkeep2.2 en hmem

/-- `DeletePortForward` preserves the invariant. -/
theorem DeletePortForward_keeps (env : Env) (w : WorkerState)
    (req : DeletePortForwardRequest) (h : NoDefaultIP w) :
    NoDefaultIP (DeletePortForward env w req).2 := by
  cases hlk : List.lookup req.Service.Key w.portForwards with
  | none =>
    rw [show (DeletePortForward env w req).2 = w from by
      simp [DeletePortForward, hlk]]
    exact h
  | some c =>
    have hcip : c.IP ≠ some defaultIP := h.2 (req.Service.Key, c) (lookup_mem _ _ _ hlk)
    rw [show (DeletePortForward env w req).2 =
        { (stopPortForwardConn env c (touch w)).2.1 with
          portForwards :=
            mapErase (stopPortForwardConn env c (touch w)).2.1.portForwards
              req.Service.Key } from by
      simp [DeletePortForward, hlk]]
    refine ⟨stopConn_keeps_default env c (touch w) hcip h.1, ?_⟩
    intro en hen
    have hen2 : en ∈ (stopPortForwardConn env c (touch w)).2.1.portForwards := by
      have h3 : en ∈ (stopPortForwardConn env c (touch w)).2.1.portForwards ∧
          ¬en.1 = req.Service.Key := by
        simpa [mapErase, List.mem_filter] using hen
      exact h3.1
    rw [stopConn_portForwards_any] at hen2
    exact h.2 en hen2

/-- One loop iteration preserves the invariant on non-faulting outcomes. -/
theorem processRequest_keeps (env : Env) (ctx : Ctx) (w : WorkerState)
    (req : PortForwardRequest) (h : NoDefaultIP w) :
    ∀ e s', processRequest env ctx w req = .done e s' → NoDefaultIP s' := by
  intro e s' heq
  unfold processRequest at heq
  cases hc : req.CreatePortForwardRequest with
  | some c =>
    rw [hc] at heq
    exact CreatePortForward_keeps env ctx w c h e s' heq
  | none =>
    rw [hc] at heq
    cases hd : req.DeletePortForwardRequest with
    | some d =>
      rw [hd] at heq
      injection heq with he hs
      subst hs
      exact DeletePortForward_keeps env w d h
    | none =>
      rw [hd] at heq
      injection heq with he hs
      subst hs
      exact h

/-- The invariant holds along every inbox history. -/
theorem runRequests_keeps (trace : List (Env × Ctx × PortForwardRequest)) :
    ∀ w : WorkerState, NoDefaultIP w → NoDefaultIP (runRequests w trace) := by
  induction trace with
  | nil => exact fun w h => h
  | cons item rest ih =>
    intro w h
    obtain ⟨env, ctx, r⟩ := item
    unfold runRequests
    cases hp : processRequest env ctx w r with
    | fault => exact h
    | done e w' => exact ih w' (processRequest_keeps env ctx w r h e w' hp)

/-- Claim C8: when the configured CIDR contains 127.0.0.1, construction
pre-acquires that address; it stays acquired across every request
history the worker can process, and therefore no pool acquisition during
any create request can ever return 127.0.0.1.  (When the pre-acquisition
fails, `NewPortForwarder` propagates the failure by construction.) -/
theorem C8_loopback_never_handed_out (opts : ProxyOpts) (w0 : WorkerState)
    (hc : Ipam.containsIP ⟨opts.base, opts.maskBits, []⟩ defaultIP = true)
    (h0 : NewPortForwarder opts = some w0) :
    defaultIP ∈ w0.ippool.acquired ∧
    ∀ trace : List (Env × Ctx × PortForwardRequest),
      defaultIP ∈ (runRequests w0 trace).ippool.acquired ∧
      ∀ ip pool, (runRequests w0 trace).ippool.AcquireIP = some (ip, pool) →
        ip ≠ defaultIP := by
  have hw0 : w0 = initialWorker ⟨opts.base, opts.maskBits, [defaultIP]⟩ := by
    unfold NewPortForwarder at h0
    rw [if_pos hc] at h0
    simp [Ipam.AcquireSpecificIP, hc] at h0
    exact h0.symm
  have hInv0 : NoDefaultIP w0 := by
    rw [hw0]
    exact ⟨List.mem_cons_self _ _, by simp [initialWorker]⟩
  refine ⟨hInv0.1, ?_⟩
  intro trace
  have hInv := runRequests_keeps trace w0 hInv0
  refine ⟨hInv.1, ?_⟩
  intro ip pool hacq
  obtain ⟨hnotin, -⟩ := AcquireIP_spec _ ip pool hacq
  exact fun hh => hnotin (hh ▸ hInv.1)

/-- The parsed 127.0.0.0/29 configuration. -/
def c8Opts : ProxyOpts := ⟨2130706432, 29⟩

/-- The worker `NewPortForwarder c8Opts` builds: 127.0.0.1 pre-acquired. -/
def c8Worker : WorkerState := initialWorker ⟨2130706432, 29, [defaultIP]⟩

/-- A one-request history: a plain create for ns/a. -/
def c8Trace : List (Env × Ctx × PortForwardRequest) :=
  [(fixEnv, backgroundCtx, ⟨some fixCreateReq, none⟩)]

/-- Claim C8 witness: on the concrete /29 pool containing 127.0.0.1 the
pre-acquired default address is still booked after processing a create. -/
theorem C8_loopback_never_handed_out_witness :
    defaultIP ∈ (runRequests c8Worker c8Trace).ippool.acquired :=
  ((C8_loopback_never_handed_out c8Opts c8Worker (by decide) (by decide)).2 c8Trace).1

/-! Claim C9. -/

/-- The removed key's line is gone from the filtered section. -/
theorem lookup_filter_self (l : List (Nat × List String)) (ip : Nat) :
    List.lookup ip (l.filter (fun e => !(e.1 == ip))) = none := by
  induction l with
  | nil => rfl
  | cons e t ih =>
    obtain ⟨a, b⟩ := e
    rw [List.filter_cons]
    by_cases hab : (a == ip) = true
    · rw [if_neg (by simp [hab])]
      exact ih
    · have hab' : (a == ip) = false := by rwa [Bool.not_eq_true] at hab
      rw [if_pos (by simp [hab'])]
      have hpa : (ip == a) = false := by
        simp only [beq_eq_false_iff_ne] at hab' ⊢
        exact fun hh => hab' hh.symm
      simp only [List.lookup, hpa]
      exact ih

/-- Other keys' lines survive the filtering untouched. -/
theorem lookup_filter_other (l : List (Nat × List String)) (ip ip' : Nat)
    (h : ip' ≠ ip) :
    List.lookup ip' (l.filter (fun e => !(e.1 == ip))) = List.lookup ip' l := by
  induction l with
  | nil => rfl
  | cons e t ih =>
    obtain ⟨a, b⟩ := e
    rw [List.filter_cons]
    by_cases hab : (a == ip) = true
    · rw [if_neg (by simp [hab])]
      have haeq : a = ip := by simpa using hab
      have hpa : (ip' == a) = false := by
        simp only [beq_eq_false_iff_ne]
        rw [haeq]
        exact h
      simp only [List.lookup, hpa]
      exact ih
    · have hab' : (a == ip) = false := by rwa [Bool.not_eq_true] at hab
      rw [if_pos (by simp [hab'])]
      simp only [List.lookup]
      cases hpa : (ip' == a) with
      | true => rfl
      | false => exact ih

/-- A section with no line for any address is empty. -/
theorem entries_nil_of_no_keys (l : List (Nat × List String))
    (h : ∀ ip, List.lookup ip l = none) : l = [] := by
  cases l with
  | nil => rfl
  | cons e t =>
    obtain ⟨a, b⟩ := e
    have := h a
    simp [List.lookup] at this

/-- Erasing an absent key from the active map is the identity. -/
theorem mapErase_of_not_mem (m : List (String × PortForwardConnection)) (k : String)
    (h : k ∉ m.map Prod.fst) : mapErase m k = m := by
  induction m with
  | nil => rfl
  | cons e t ih =>
    obtain ⟨a, c⟩ := e
    have hne : a ≠ k := by
      intro hh
      exact h (by rw [List.map_cons, hh]; exact List.mem_cons_self _ _)
    have hak : (a == k) = false := by simpa using hne
    unfold mapErase
    rw [List.filter_cons, if_pos (by simp [hak])]
    have ht : k ∉ t.map Prod.fst := fun hh => h (by rw [List.map_cons]; exact List.mem_cons_of_mem _ hh)
    have := ih ht
    unfold mapErase at this
    rw [this]

/-- The state invariant under which shutdown is clean: keys are unique
and consistent with the records, the acquired addresses are exactly the
baseline (the construction-time reservation) plus the records' IPs, no
two records share an IP, and the managed hosts section (persisted on
disk) holds exactly the records' lines. -/
structure CleanState (w : WorkerState) (baseline : List Nat) : Prop where
  keysNodup : (w.portForwards.map Prod.fst).Nodup
  keyConsistent : ∀ e ∈ w.portForwards, e.2.Service.Key = e.1
  acquiredNodup : w.ippool.acquired.Nodup
  ipMem : ∀ ip, ip ∈ w.ippool.acquired ↔
    (ip ∈ baseline ∨ ∃ e ∈ w.portForwards, e.2.IP = some ip)
  ipKey : ∀ e1 ∈ w.portForwards, ∀ e2 ∈ w.portForwards, ∀ ip,
    e1.2.IP = some ip → e2.2.IP = some ip → e1.1 = e2.1
  baselineDisjoint : ∀ e ∈ w.portForwards, ∀ ip, e.2.IP = some ip → ip ∉ baseline
  hostsMem : ∀ ip, (List.lookup ip w.dns.entries).isSome = true ↔
    ∃ e ∈ w.portForwards, e.2.IP = some ip
  diskSync : w.dns.disk = w.dns.entries

/-- The shutdown iteration, walking the initial key list: every record
is deleted, every record-held IP is released back to the baseline-free
pool, and the managed hosts section ends empty in memory and on disk. -/
theorem shutdownLoop_clean (env : Env) (hsv : env.stopSaveOk = true) :
    ∀ (keys : List String) (w : WorkerState) (baseline : List Nat),
      w.portForwards.map Prod.fst = keys →
      CleanState w baseline →
      (keys.foldl (fun s k =>
        match List.lookup k s.portForwards with
        | none => s
        | some c => (DeletePortForward env s ⟨c.Service⟩).2) w).portForwards = [] ∧
      (∀ ip, ip ∈ (keys.foldl (fun s k =>
        match List.lookup k s.portForwards with
        | none => s
        | some c => (DeletePortForward env s ⟨c.Service⟩).2) w).ippool.acquired ↔
        ip ∈ baseline) ∧
      (keys.foldl (fun s k =>
        match List.lookup k s.portForwards with
        | none => s
        | some c => (DeletePortForward env s ⟨c.Service⟩).2) w).dns.entries = [] ∧
      (keys.foldl (fun s k =>
        match List.lookup k s.portForwards with
        | none => s
        | some c => (DeletePortForward env s ⟨c.Service⟩).2) w).dns.disk = [] := by
  intro keys
  induction keys with
  | nil =>
    intro w baseline hmap hcs
    have hpf : w.portForwards = [] := by
      cases hh : w.portForwards with
      | nil => rfl
      | cons e es => rw [hh, List.map_cons] at hmap; cases hmap
    have hent : w.dns.entries = [] := by
      apply entries_nil_of_no_keys
      intro ip
      cases hlk : List.lookup ip w.dns.entries with
      | none => rfl
      | some v =>
        exfalso
        have h3 := (hcs.hostsMem ip).mp (by rw [hlk]; rfl)
        rw [hpf] at h3
        simp at h3
    simp only [List.foldl_nil]
    refine ⟨hpf, ?_, hent, ?_⟩
    · intro ip
      have h2 := hcs.ipMem ip
      rw [hpf] at h2
      simpa using h2
    · rw [hcs.diskSync]
      exact hent
  | cons k rest ih =>
    intro w baseline hmap hcs
    cases hpf : w.portForwards with
    | nil => rw [hpf] at hmap; cases hmap
    | cons e es =>
      obtain ⟨a, c⟩ := e
      rw [hpf, List.map_cons] at hmap
      injection hmap with ha hrest
      subst ha
      have hmemHead : (a, c) ∈ w.portForwards := by
        rw [hpf]
        exact List.mem_cons_self _ _
      have hlk : List.lookup a w.portForwards = some c := by
        rw [hpf]
        simp [List.lookup]
      have hkey : c.Service.Key = a := hcs.keyConsistent (a, c) hmemHead
      have hnodups := hcs.keysNodup
      rw [hpf, List.map_cons] at hnodups
      obtain ⟨hkne, hesnodup⟩ := List.nodup_cons.mp hnodups
      have hpfS : (stopPortForwardConn env c (touch w)).2.1.portForwards =
          w.portForwards := stopConn_portForwards_any env c (touch w)
      have hW1pf : mapErase (stopPortForwardConn env c
          (touch w)).2.1.portForwards a = es := by
        rw [hpfS, hpf]
        unfold mapErase
        rw [List.filter_cons, if_neg (by simp)]
        have := mapErase_of_not_mem es a hkne
        unfold mapErase at this
        rw [this]
      rw [List.foldl_cons,
        show (match List.lookup a w.portForwards with
          | none => w
          | some c => (DeletePortForward env w ⟨c.Service⟩).2) =
          (DeletePortForward env w ⟨c.Service⟩).2 from by rw [hlk],
        show (DeletePortForward env w ⟨c.Service⟩).2 =
          { (stopPortForwardConn env c (touch w)).2.1 with
            portForwards := mapErase (stopPortForwardConn env c
              (touch w)).2.1.portForwards a } from by
          simp [DeletePortForward, hkey, hlk]]
      apply ih _ baseline (by rw [hW1pf]; exact hrest)
      -- the invariant survives the deletion
      cases hcip : c.IP with
      | none =>
        have hpool : (stopPortForwardConn env c (touch w)).2.1.ippool = w.ippool :=
          (stopConn_of_IP_none env c (touch w) hcip).2.1
        have hdns : (stopPortForwardConn env c (touch w)).2.1.dns = w.dns :=
          (stopConn_of_IP_none env c (touch w) hcip).2.2.1
        refine ⟨?_, ?_, ?_, ?_, ?_, ?_, ?_, ?_⟩
        · rw [hW1pf]
          exact hesnodup
        · intro e he
          rw [hW1pf] at he
          exact hcs.keyConsistent e (by rw [hpf]; exact List.mem_cons_of_mem _ he)
        · rw [hpool]
          exact hcs.acquiredNodup
        · intro ip
          rw [hpool, hW1pf, hcs.ipMem ip, hpf]
          constructor
          · rintro (hb | ⟨e2, he2, hip2⟩)
            · exact Or.inl hb
            · rcases List.mem_cons.mp he2 with rfl | he2'
              · rw [hcip] at hip2
                cases hip2
              · exact Or.inr ⟨e2, he2', hip2⟩
          · rintro (hb | ⟨e2, he2, hip2⟩)
            · exact Or.inl hb
            · exact Or.inr ⟨e2, List.mem_cons_of_mem _ he2, hip2⟩
        · intro e1 he1 e2 he2 ip hi1 hi2
          rw [hW1pf] at he1 he2
          exact hcs.ipKey e1 (by rw [hpf]; exact List.mem_cons_of_mem _ he1)
            e2 (by rw [hpf]; exact List.mem_cons_of_mem _ he2) ip hi1 hi2
        · intro e he ip hip
          rw [hW1pf] at he
          exact hcs.baselineDisjoint e (by rw [hpf]; exact List.mem_cons_of_mem _ he) ip hip
        · intro ip
          rw [hdns, hW1pf, hcs.hostsMem ip, hpf]
          constructor
          · rintro ⟨e2, he2, hip2⟩
            rcases List.mem_cons.mp he2 with rfl | he2'
            · rw [hcip] at hip2
              cases hip2
            · exact ⟨e2, he2', hip2⟩
          · rintro ⟨e2, he2, hip2⟩
            exact ⟨e2, List.mem_cons_of_mem _ he2, hip2⟩
        · rw [hdns]
          exact hcs.diskSync
      | some ip0 =>
        have hip0mem : ip0 ∈ w.ippool.acquired :=
          (hcs.ipMem ip0).mpr (Or.inr ⟨(a, c), hmemHead, hcip⟩)
        have hacq1 : (stopPortForwardConn env c (touch w)).2.1.ippool.acquired =
            w.ippool.acquired.erase ip0 := by
          rw [stopConn_st_acquired env c (touch w) ip0 hcip]
          simp [touch, hip0mem]
        have hent1 : (stopPortForwardConn env c (touch w)).2.1.dns.entries =
            w.dns.entries.filter (fun e => !(e.1 == ip0)) :=
          stopConn_st_entries env c (touch w) ip0 hcip
        have hdisk1 : (stopPortForwardConn env c (touch w)).2.1.dns.disk =
            w.dns.entries.filter (fun e => !(e.1 == ip0)) := by
          rw [stopConn_st_disk env c (touch w) ip0 hcip, hsv]
          simp [touch]
        have hnotes : ∀ e ∈ es, e.2.IP ≠ some ip0 := by
          intro e he hip
          have := hcs.ipKey e (by rw [hpf]; exact List.mem_cons_of_mem _ he)
            (a, c) hmemHead ip0 hip hcip
          exact hkne (this ▸ List.mem_map_of_mem Prod.fst he)
        refine ⟨?_, ?_, ?_, ?_, ?_, ?_, ?_, ?_⟩
        · rw [hW1pf]
          exact hesnodup
        · intro e he
          rw [hW1pf] at he
          exact hcs.keyConsistent e (by rw [hpf]; exact List.mem_cons_of_mem _ he)
        · rw [hacq1]
          exact hcs.acquiredNodup.erase ip0
        · intro ip
          rw [hacq1, hW1pf, List.Nodup.mem_erase_iff hcs.acquiredNodup]
          constructor
          · rintro ⟨hne, hmem⟩
            rcases (hcs.ipMem ip).mp hmem with hb | ⟨e2, he2, hip2⟩
            · exact Or.inl hb
            · rw [hpf] at he2
              rcases List.mem_cons.mp he2 with rfl | he2'
              · rw [hcip] at hip2
                injection hip2 with hh
                exact absurd hh.symm hne
              · exact Or.inr ⟨e2, he2', hip2⟩
          · rintro (hb | ⟨e2, he2, hip2⟩)
            · refine ⟨?_, (hcs.ipMem ip).mpr (Or.inl hb)⟩
              intro hh
              subst hh
              exact hcs.baselineDisjoint (a, c) hmemHead ip hcip hb
            · refine ⟨?_, (hcs.ipMem ip).mpr
                (Or.inr ⟨e2, by rw [hpf]; exact List.mem_cons_of_mem _ he2, hip2⟩)⟩
              intro hh
              subst hh
              exact hnotes e2 he2 hip2
        · intro e1 he1 e2 he2 ip hi1 hi2
          rw [hW1pf] at he1 he2
          exact hcs.ipKey e1 (by rw [hpf]; exact List.mem_cons_of_mem _ he1)
            e2 (by rw [hpf]; exact List.mem_cons_of_mem _ he2) ip hi1 hi2
        · intro e he ip hip
          rw [hW1pf] at he
          exact hcs.baselineDisjoint e (by rw [hpf]; exact List.mem_cons_of_mem _ he) ip hip
        · intro ip
          rw [hent1, hW1pf]
          by_cases hipeq : ip = ip0
          · subst hipeq
            rw [lookup_filter_self]
            simp only [Option.isSome_none]
            constructor
            · intro hh
              cases hh
            · rintro ⟨e2, he2, hip2⟩
              exact absurd hip2 (hnotes e2 he2)
          · rw [lookup_filter_other w.dns.entries ip0 ip hipeq, hcs.hostsMem ip, hpf]
            constructor
            · rintro ⟨e2, he2, hip2⟩
              rcases List.mem_cons.mp he2 with rfl | he2'
              · rw [hcip] at hip2
                injection hip2 with hh
                exact absurd hh.symm hipeq
              · exact ⟨e2, he2', hip2⟩
            · rintro ⟨e2, he2, hip2⟩
              exact ⟨e2, List.mem_cons_of_mem _ he2, hip2⟩
        · rw [hdisk1, hent1]

/-- Claim C9: on cancellation the worker deletes every record in the
active map and closes the done channel; in any state satisfying the
resource invariant (record IPs and hosts lines exactly match the pool
and the hosts file, on top of the construction-time baseline), and with
the background hosts save succeeding, shutdown empties the active map,
returns the pool's acquired set to the baseline — so the free set equals
the initial free set — and leaves the hosts file's managed section empty
both in memory and on disk. -/
theorem C9_shutdown_releases_everything (env : Env) (w : WorkerState)
    (baseline : List Nat) (hsv : env.stopSaveOk = true)
    (hcs : CleanState w baseline) :
    (shutdownWorker env w).2 = true ∧
    (shutdownWorker env w).1.portForwards = [] ∧
    (∀ ip, ip ∈ (shutdownWorker env w).1.ippool.acquired ↔ ip ∈ baseline) ∧
    (shutdownWorker env w).1.dns.entries = [] ∧
    (shutdownWorker env w).1.dns.disk = [] := by
  obtain ⟨h1, h2, h3, h4⟩ :=
    shutdownLoop_clean env hsv (w.portForwards.map Prod.fst) w baseline rfl hcs
  exact ⟨rfl, h1, h2, h3, h4⟩

/-- Claim C9 witness: shutting down the worker that manages ns/a with
IP 2130706433 empties the map and the managed hosts section. -/
theorem C9_shutdown_releases_everything_witness :
    (shutdownWorker fixEnv fixStopWorker).1.portForwards = [] ∧
    (shutdownWorker fixEnv fixStopWorker).1.dns.entries = [] ∧
    (shutdownWorker fixEnv fixStopWorker).1.dns.disk = [] := by
  have hcs : CleanState fixStopWorker [] := by
    refine ⟨by decide, ?_, by decide, ?_, ?_, ?_, ?_, rfl⟩
    · intro e he
      have he2 : e = ("ns/a", fixRunningConn) := by
        simpa [fixStopWorker] using he
      subst he2
      rfl
    · intro ip
      simp [fixStopWorker, fixPool, fixRunningConn]
      exact eq_comm
    · intro e1 he1 e2 he2 ip hi1 hi2
      have h1 : e1 = ("ns/a", fixRunningConn) := by simpa [fixStopWorker] using he1
      have h2 : e2 = ("ns/a", fixRunningConn) := by simpa [fixStopWorker] using he2
      rw [h1, h2]
    · intro e he ip hip
      simp
    · intro ip
      by_cases hip : ip = 2130706433
      · subst hip
        decide
      · have hbe : (ip == 2130706433) = false := by simpa using hip
        simp [fixStopWorker, fixRunningConn, List.lookup, hbe]
        exact fun h => hip h.symm
  obtain ⟨-, h2, -, h4, h5⟩ :=
    C9_shutdown_releases_everything fixEnv fixStopWorker [] rfl hcs
  exact ⟨h2, h4, h5⟩

end Localizer
